import Mathlib

/-!
# c-mdn-logger: a shallow embedding of `src/logger/logger.c`

The C translation unit keeps one global pointer, `g_Logger_internalState`, to a heap
record holding a growable array of stream configurations.  Four entry points act on it:
`mdn_Logger_init`, `mdn_Logger_deinit`, `mdn_Logger_addOutputStream` and `mdn_Logger_log`.

Modelling choices.

* A `FILE *` is a natural number, `0` being `NULL`.  What has been written to a stream
  and whether the stream is in a failing condition is kept in a table `Nat → FILE`.
* The enumerations `mdn_Logger_loggingLevel_t` and `mdn_Logger_loggingFormat_t` are
  carried as integers, since the code range-checks them and the tests cast `-1` to them.
* The global pointer is an `Option`: `none` is `NULL`.
* The outcome of the allocator (`MDN_MW_malloc`, `MDN_MW_realloc`) is an input of the
  call, as it is for the mocked allocator of the test-suite.
* `MDN_LOGGER_SAFE_MODE` is a compile-time switch; it is a Boolean parameter here.
* Undefined behaviour (dereferencing `NULL`, indexing a table out of bounds) is the
  result `none`.
* The clock (`gettimeofday`, `localtime`) and the `printf` expansion of a message are
  services of the host; they are gathered in the record `Host`.
* Only the POSIX branch of `mdn_Logger_printTimestamp` is modelled.
* The conditional compilation of the two headers, `include/logger.h` and
  `include/mdn/logger.h`, is a function of the set of floor-selection macros a build
  defines: the guard either lets the build through or reaches `#error`, and each log macro
  expands to a call statement or to nothing.
* The byte count `(streamsArrLen + 1) * sizeof(...)` is not reduced modulo the width of
  `size_t`: it would wrap only for an array that cannot fit in the address space.
-/

namespace MdnLogger

/-! ## Status codes and public types -/

/-- The status codes of `mdn/status.h` that `logger.c` returns. -/
inductive mdn_Status_t where
  | MDN_STATUS_SUCCESS
  | MDN_STATUS_ERROR_BAD_ARGUMENT
  | MDN_STATUS_ERROR_LIBRARY_NOT_INITIALIZED
  | MDN_STATUS_ERROR_LIBRARY_ALREADY_INITIALIZED
  | MDN_STATUS_ERROR_MEM_ALLOC
  deriving DecidableEq, Repr

open mdn_Status_t

/-- Enumerators of `mdn_Logger_loggingLevel_t` (logger.h, lines 14-21). -/
def MDN_LOGGER_LOGGING_LEVEL_DEBUG : Int := 0
/-- Enumerator `MDN_LOGGER_LOGGING_LEVEL_INFO`. -/
def MDN_LOGGER_LOGGING_LEVEL_INFO : Int := 1
/-- Enumerator `MDN_LOGGER_LOGGING_LEVEL_WARNING`. -/
def MDN_LOGGER_LOGGING_LEVEL_WARNING : Int := 2
/-- Enumerator `MDN_LOGGER_LOGGING_LEVEL_ERROR`. -/
def MDN_LOGGER_LOGGING_LEVEL_ERROR : Int := 3
/-- Enumerator `MDN_LOGGER_LOGGING_LEVEL_CRITICAL`. -/
def MDN_LOGGER_LOGGING_LEVEL_CRITICAL : Int := 4
/-- Enumerator `MDN_LOGGER_LOGGING_LEVEL_COUNT`, the upper bound. -/
def MDN_LOGGER_LOGGING_LEVEL_COUNT : Int := 5

/-- Enumerators of `mdn_Logger_loggingFormat_t` (logger.h, lines 23-27). -/
def MDN_LOGGER_LOGGING_FORMAT_SCREEN : Int := 0
/-- Enumerator `MDN_LOGGER_LOGGING_FORMAT_FILE`. -/
def MDN_LOGGER_LOGGING_FORMAT_FILE : Int := 1
/-- Enumerator `MDN_LOGGER_LOGGING_FORMAT_COUNT`, the upper bound. -/
def MDN_LOGGER_LOGGING_FORMAT_COUNT : Int := 2

/-- The record `mdn_Logger_StreamConfig_t` (logger.h, lines 29-33). -/
structure mdn_Logger_StreamConfig_t where
  stream : Nat
  loggingLevel : Int
  loggingFormat : Int
  deriving DecidableEq, Repr

/-- The macro `IS_VALID_LOGGING_LEVEL` (logger.c, line 18). -/
def IS_VALID_LOGGING_LEVEL (loggingLevel : Int) : Bool :=
  decide (0 ≤ loggingLevel) && decide (loggingLevel < MDN_LOGGER_LOGGING_LEVEL_COUNT)

/-- The macro `IS_VALID_LOGGING_FORMAT` (logger.c, line 19). -/
def IS_VALID_LOGGING_FORMAT (loggingFormat : Int) : Bool :=
  decide (0 ≤ loggingFormat) && decide (loggingFormat < MDN_LOGGER_LOGGING_FORMAT_COUNT)

/-! ## Internal state -/

/-- The record `Logger_InternalState_t` (logger.c, lines 22-25): the contents of the
heap block `streamsArr` points to, and the element count kept beside it. -/
structure Logger_InternalState_t where
  streamsArr : List mdn_Logger_StreamConfig_t
  streamsArrLen : Nat
  deriving DecidableEq, Repr

/-- What a C stream has received so far, and whether writing to it fails. -/
structure FILE where
  written : List Char
  error : Bool
  deriving DecidableEq, Repr

/-- The state the library acts on: the global `g_Logger_internalState` and the streams
of the process. -/
structure World where
  g_Logger_internalState : Option Logger_InternalState_t
  streams : Nat → FILE

/-! ## The allocator -/

/-- The allocator call `MDN_MW_malloc(sizeof(*g_Logger_internalState))`: a fresh
record with indeterminate fields, or `NULL`. -/
def MDN_MW_malloc (ok : Bool) : Option Logger_InternalState_t :=
  if ok then some { streamsArr := [], streamsArrLen := 0 } else none

/-- The content of a freshly obtained array cell before it is assigned. -/
def indeterminate : mdn_Logger_StreamConfig_t :=
  { stream := 0, loggingLevel := 0, loggingFormat := 0 }

/-- The allocator call `MDN_MW_realloc(block, n * sizeof(*block))`: `NULL`, the old block
being left as it was, or a block of `n` cells that starts with the old cells. -/
def MDN_MW_realloc (ok : Bool) (block : List mdn_Logger_StreamConfig_t) (n : Nat) :
    Option (List mdn_Logger_StreamConfig_t) :=
  if ok then some (block.take n ++ List.replicate (n - block.length) indeterminate)
  else none

/-! ## Registry operations -/

/-- The function `mdn_Logger_init` (logger.c, lines 87-105). -/
def mdn_Logger_init (safeMode mallocOk : Bool) (w : World) : mdn_Status_t × World :=
  if safeMode && w.g_Logger_internalState.isSome then
    (MDN_STATUS_ERROR_LIBRARY_ALREADY_INITIALIZED, w)
  else
    match MDN_MW_malloc mallocOk with
    | none => (MDN_STATUS_ERROR_MEM_ALLOC, { w with g_Logger_internalState := none })
    | some _ =>
      (MDN_STATUS_SUCCESS,
        { w with g_Logger_internalState := some { streamsArr := [], streamsArrLen := 0 } })

/-- The function `mdn_Logger_deinit` (logger.c, lines 107-119).  Without the safe-mode
guard a missing registry is dereferenced. -/
def mdn_Logger_deinit (safeMode : Bool) (w : World) : Option (mdn_Status_t × World) :=
  match w.g_Logger_internalState with
  | none =>
    if safeMode then some (MDN_STATUS_ERROR_LIBRARY_NOT_INITIALIZED, w) else none
  | some _ => some (MDN_STATUS_SUCCESS, { w with g_Logger_internalState := none })

/-- The function `mdn_Logger_addOutputStream` (logger.c, lines 121-148). -/
def mdn_Logger_addOutputStream (safeMode reallocOk : Bool)
    (streamConfig : mdn_Logger_StreamConfig_t) (w : World) : Option (mdn_Status_t × World) :=
  match w.g_Logger_internalState with
  | none =>
    if safeMode then some (MDN_STATUS_ERROR_LIBRARY_NOT_INITIALIZED, w) else none
  | some st =>
    if safeMode && streamConfig.stream == 0 then
      some (MDN_STATUS_ERROR_BAD_ARGUMENT, w)
    else if safeMode && !IS_VALID_LOGGING_LEVEL streamConfig.loggingLevel then
      some (MDN_STATUS_ERROR_BAD_ARGUMENT, w)
    else if safeMode && !IS_VALID_LOGGING_FORMAT streamConfig.loggingFormat then
      some (MDN_STATUS_ERROR_BAD_ARGUMENT, w)
    else
      let streamsArrTemp := st.streamsArr
      match MDN_MW_realloc reallocOk st.streamsArr (st.streamsArrLen + 1) with
      | none =>
        some (MDN_STATUS_ERROR_MEM_ALLOC,
          { w with g_Logger_internalState := some { st with streamsArr := streamsArrTemp } })
      | some block =>
        let grown : Logger_InternalState_t :=
          { streamsArr := block.set st.streamsArrLen streamConfig,
            streamsArrLen := st.streamsArrLen + 1 }
        some (MDN_STATUS_SUCCESS, { w with g_Logger_internalState := some grown })

/-! ## Host services -/

/-- The fields of `struct timeval` that the code reads.  `gettimeofday` yields a count of
microseconds between 0 and 999999, hence a natural number. -/
structure timeval where
  tv_sec : Int
  tv_usec : Nat
  deriving DecidableEq, Repr

/-- The fields of `struct tm` that the conversion `%Y-%m-%d %H:%M:%S` reads: `tm_year`
counts years from 1900 and `tm_mon` months from 0. -/
structure tm where
  tm_year : Nat
  tm_mon : Nat
  tm_mday : Nat
  tm_hour : Nat
  tm_min : Nat
  tm_sec : Nat
  deriving DecidableEq, Repr

/-- One variadic argument of a log call. -/
inductive Arg where
  | int (value : Int)
  | str (value : List Char)
  deriving DecidableEq, Repr

/-- The services the code obtains from its host: the clock reading taken while the
destination of a given index is rendered (`none` when `gettimeofday` reports failure),
the conversion to local time, and the `printf` expansion of a format with arguments. -/
structure Host where
  gettimeofday : Nat → Option timeval
  localtime : Int → tm
  vformat : List Char → List Arg → List Char

/-- The clock reading `mdn_Logger_printTimestamp` works with (logger.c, lines 162-165):
what `gettimeofday` stores, or zero seconds and microseconds when it reports failure. -/
def Host.reading (host : Host) (tick : Nat) : timeval :=
  match host.gettimeofday tick with
  | some reading => reading
  | none => { tv_sec := 0, tv_usec := 0 }

/-! ## Output primitives -/

/-- A call `fprintf(stream, "%s", text)` whose result is discarded: a `NULL` stream is
dereferenced, a failing stream receives nothing, any other stream receives `text`. -/
def fprintf (stream : Nat) (text : List Char) (fs : Nat → FILE) : Option (Nat → FILE) :=
  if stream = 0 then none
  else if (fs stream).error then some fs
  else some (fun s => if s = stream then { fs s with written := (fs s).written ++ text }
                      else fs s)

/-- The conversion `%0<width>d` of a non-negative number. -/
def zeroPad (width n : Nat) : List Char :=
  List.replicate (width - (Nat.toDigits 10 n).length) '0' ++ Nat.toDigits 10 n

/-- The conversion `%-<width>s`: the text, then spaces up to the field width. -/
def leftJustify (width : Nat) (text : List Char) : List Char :=
  text ++ List.replicate (width - text.length) (Char.ofNat 32)

/-! ## Lookup tables -/

/-- The table `g_mdn_Logger_logLevelToStrMap` (logger.c, lines 39-45). -/
def g_mdn_Logger_logLevelToStrMap (loggingLevel : Int) : Option (List Char) :=
  if loggingLevel = MDN_LOGGER_LOGGING_LEVEL_DEBUG then some "DEBUG".toList
  else if loggingLevel = MDN_LOGGER_LOGGING_LEVEL_INFO then some "INFO".toList
  else if loggingLevel = MDN_LOGGER_LOGGING_LEVEL_WARNING then some "WARNING".toList
  else if loggingLevel = MDN_LOGGER_LOGGING_LEVEL_ERROR then some "ERROR".toList
  else if loggingLevel = MDN_LOGGER_LOGGING_LEVEL_CRITICAL then some "CRITICAL".toList
  else none

/-- The enumeration `mdn_Logger_loggingColor_t` (logger.c, lines 62-69). -/
inductive mdn_Logger_loggingColor_t where
  | LOGGING_COLOR_GRAY
  | LOGGING_COLOR_RESET
  | LOGGING_COLOR_YELLOW
  | LOGGING_COLOR_RED
  | LOGGING_COLOR_MAGENTA
  deriving DecidableEq, Repr

open mdn_Logger_loggingColor_t

/-- The table `g_mdn_Logger_loggingLevelToColorMap` (logger.c, lines 71-77). -/
def g_mdn_Logger_loggingLevelToColorMap (loggingLevel : Int) :
    Option mdn_Logger_loggingColor_t :=
  if loggingLevel = MDN_LOGGER_LOGGING_LEVEL_DEBUG then some LOGGING_COLOR_GRAY
  else if loggingLevel = MDN_LOGGER_LOGGING_LEVEL_INFO then some LOGGING_COLOR_RESET
  else if loggingLevel = MDN_LOGGER_LOGGING_LEVEL_WARNING then some LOGGING_COLOR_YELLOW
  else if loggingLevel = MDN_LOGGER_LOGGING_LEVEL_ERROR then some LOGGING_COLOR_RED
  else if loggingLevel = MDN_LOGGER_LOGGING_LEVEL_CRITICAL then some LOGGING_COLOR_MAGENTA
  else none

/-- The macro `COLOR(color)` (logger.c, lines 50-55): `ESC [ color m`. -/
def COLOR (color : List Char) : List Char :=
  Char.ofNat 27 :: '[' :: (color ++ ['m'])

/-- The table `g_Logger_colorToTerminalColorMap` (logger.c, lines 79-85). -/
def g_Logger_colorToTerminalColorMap : mdn_Logger_loggingColor_t → List Char
  | LOGGING_COLOR_GRAY => COLOR "90".toList
  | LOGGING_COLOR_RESET => COLOR "0".toList
  | LOGGING_COLOR_YELLOW => COLOR "33".toList
  | LOGGING_COLOR_RED => COLOR "31".toList
  | LOGGING_COLOR_MAGENTA => COLOR "35".toList

/-! ## Renderers -/

/-- The record `mdn_Logger_logToStreamArguments_t` (logger.c, lines 29-37). -/
structure mdn_Logger_logToStreamArguments_t where
  streamIndex : Nat
  loggingLevel : Int
  file : List Char
  line : Int
  funcName : List Char
  format : List Char
  args : List Arg

/-- The function `mdn_Logger_setColor` (logger.c, lines 150-152). -/
def mdn_Logger_setColor (stream : Nat) (color : mdn_Logger_loggingColor_t)
    (fs : Nat → FILE) : Option (Nat → FILE) :=
  fprintf stream (g_Logger_colorToTerminalColorMap color) fs

/-- The call `strftime(timestampBuf, 20, "%Y-%m-%d %H:%M:%S", tm_info)`: the text, or
`none` when it does not fit the buffer with its terminator, the buffer being
indeterminate then. -/
def strftime (t : tm) : Option (List Char) :=
  let text := Nat.toDigits 10 (t.tm_year + 1900) ++ '-' :: zeroPad 2 (t.tm_mon + 1)
    ++ '-' :: zeroPad 2 t.tm_mday ++ Char.ofNat 32 :: zeroPad 2 t.tm_hour
    ++ ':' :: zeroPad 2 t.tm_min ++ ':' :: zeroPad 2 t.tm_sec
  if text.length + 1 ≤ 20 then some text else none

/-- The function `mdn_Logger_printTimestamp` (logger.c, lines 154-170, POSIX branch).
The parameter `tick` selects the clock reading. -/
def mdn_Logger_printTimestamp (host : Host) (tick : Nat) (stream : Nat)
    (includeDate : Bool) (fs : Nat → FILE) : Option (Nat → FILE) :=
  let tv : timeval := host.reading tick
  let tm_info := host.localtime tv.tv_sec
  match strftime tm_info with
  | none => none
  | some timestampBuf =>
    let timestampStart := if includeDate then timestampBuf else timestampBuf.drop 11
    fprintf stream
      (timestampStart ++ '.' :: zeroPad 3 (tv.tv_usec / 1000) ++ [Char.ofNat 32]) fs

/-- The function `mdn_Logger_printLoggingLevel` (logger.c, lines 183-185). -/
def mdn_Logger_printLoggingLevel (stream : Nat) (loggingLevel : Int)
    (fs : Nat → FILE) : Option (Nat → FILE) :=
  match g_mdn_Logger_logLevelToStrMap loggingLevel with
  | none => none
  | some name => fprintf stream (leftJustify 8 name ++ [Char.ofNat 32]) fs

/-- The function `mdn_Logger_printFuncName` (logger.c, lines 187-189). -/
def mdn_Logger_printFuncName (stream : Nat) (funcName : List Char)
    (fs : Nat → FILE) : Option (Nat → FILE) :=
  fprintf stream (leftJustify 20 funcName ++ [Char.ofNat 32]) fs

/-- The function `mdn_Logger_printSeparator` (logger.c, lines 191-193). -/
def mdn_Logger_printSeparator (stream : Nat) (fs : Nat → FILE) : Option (Nat → FILE) :=
  fprintf stream ['|', Char.ofNat 32] fs

/-- The function `mdn_Logger_logToScreen` (logger.c, lines 195-205). -/
def mdn_Logger_logToScreen (host : Host) (st : Logger_InternalState_t)
    (logToStreamArguments : mdn_Logger_logToStreamArguments_t) (fs : Nat → FILE) :
    Option (Nat → FILE) :=
  match st.streamsArr[logToStreamArguments.streamIndex]? with
  | none => none
  | some cfg =>
    let stream := cfg.stream
    match g_mdn_Logger_loggingLevelToColorMap logToStreamArguments.loggingLevel with
    | none => none
    | some color =>
      (mdn_Logger_setColor stream color fs).bind fun fs1 =>
      (mdn_Logger_printTimestamp host logToStreamArguments.streamIndex stream false fs1).bind
        fun fs2 =>
      (mdn_Logger_printFuncName stream logToStreamArguments.funcName fs2).bind fun fs3 =>
      (mdn_Logger_printSeparator stream fs3).bind fun fs4 =>
      (fprintf stream
        (host.vformat logToStreamArguments.format logToStreamArguments.args) fs4).bind
        fun fs5 =>
      (mdn_Logger_setColor stream LOGGING_COLOR_RESET fs5).bind fun fs6 =>
      fprintf stream [Char.ofNat 10] fs6

/-- The function `mdn_Logger_logToFile` (logger.c, lines 207-216). -/
def mdn_Logger_logToFile (host : Host) (st : Logger_InternalState_t)
    (logToStreamArguments : mdn_Logger_logToStreamArguments_t) (fs : Nat → FILE) :
    Option (Nat → FILE) :=
  match st.streamsArr[logToStreamArguments.streamIndex]? with
  | none => none
  | some cfg =>
    let stream := cfg.stream
    (mdn_Logger_printTimestamp host logToStreamArguments.streamIndex stream true fs).bind
      fun fs1 =>
    (mdn_Logger_printLoggingLevel stream logToStreamArguments.loggingLevel fs1).bind
      fun fs2 =>
    (mdn_Logger_printFuncName stream logToStreamArguments.funcName fs2).bind fun fs3 =>
    (mdn_Logger_printSeparator stream fs3).bind fun fs4 =>
    (fprintf stream
      (host.vformat logToStreamArguments.format logToStreamArguments.args) fs4).bind
      fun fs5 =>
    fprintf stream [Char.ofNat 10] fs5

/-- The type `mdn_Logger_logPrintFunc` (logger.c, line 218). -/
abbrev mdn_Logger_logPrintFunc : Type :=
  Host → Logger_InternalState_t → mdn_Logger_logToStreamArguments_t → (Nat → FILE) →
    Option (Nat → FILE)

/-- The table `g_mdn_Logger_logFormatToFuncMap` (logger.c, lines 219-222). -/
def g_mdn_Logger_logFormatToFuncMap (loggingFormat : Int) : Option mdn_Logger_logPrintFunc :=
  if loggingFormat = MDN_LOGGER_LOGGING_FORMAT_SCREEN then some mdn_Logger_logToScreen
  else if loggingFormat = MDN_LOGGER_LOGGING_FORMAT_FILE then some mdn_Logger_logToFile
  else none

/-! ## Dispatch -/

/-- The `for` loop of `mdn_Logger_log` (logger.c, lines 235-246), started at index `idx`
with `remaining = streamsArrLen - idx` iterations to go.  Each iteration that passes the
threshold restarts the argument list (`va_start`) and hands a copy (`va_copy`) to the
renderer. -/
def mdn_Logger_log_loop (host : Host) (st : Logger_InternalState_t) (loggingLevel : Int)
    (file : List Char) (line : Int) (funcName format : List Char) (varargs : List Arg) :
    Nat → Nat → (Nat → FILE) → Option (Nat → FILE)
  | 0, _, fs => some fs
  | remaining + 1, idx, fs =>
    match st.streamsArr[idx]? with
    | none => none
    | some cfg =>
      if loggingLevel < cfg.loggingLevel then
        mdn_Logger_log_loop host st loggingLevel file line funcName format varargs
          remaining (idx + 1) fs
      else
        let args := varargs
        let logToStreamArguments : mdn_Logger_logToStreamArguments_t :=
          { streamIndex := idx, loggingLevel := loggingLevel, file := file, line := line,
            funcName := funcName, format := format, args := args }
        match g_mdn_Logger_logFormatToFuncMap cfg.loggingFormat with
        | none => none
        | some logPrintFunc =>
          match logPrintFunc host st logToStreamArguments fs with
          | none => none
          | some fs1 =>
            mdn_Logger_log_loop host st loggingLevel file line funcName format varargs
              remaining (idx + 1) fs1

/-- The function `mdn_Logger_log` (logger.c, lines 224-247).  It has no guard of its own:
a missing registry is dereferenced. -/
def mdn_Logger_log (host : Host) (loggingLevel : Int) (file : List Char) (line : Int)
    (funcName format : List Char) (varargs : List Arg) (w : World) : Option World :=
  match w.g_Logger_internalState with
  | none => none
  | some st =>
    match mdn_Logger_log_loop host st loggingLevel file line funcName format varargs
        st.streamsArrLen 0 w.streams with
    | none => none
    | some fs => some { w with streams := fs }

/-! ## Sequences of calls -/

/-- One call of the public interface, with the outcome of the allocator where the call
allocates. -/
inductive Call where
  | init (mallocOk : Bool)
  | deinit
  | addOutputStream (reallocOk : Bool) (streamConfig : mdn_Logger_StreamConfig_t)
  | log (host : Host) (loggingLevel : Int) (file : List Char) (line : Int)
      (funcName format : List Char) (varargs : List Arg)

/-- The effect of one call: the status it returns (`mdn_Logger_log` returns nothing) and
the state it leaves, or `none` for undefined behaviour. -/
def step (safeMode : Bool) (w : World) : Call → Option (Option mdn_Status_t × World)
  | Call.init mallocOk =>
    some (some (mdn_Logger_init safeMode mallocOk w).1, (mdn_Logger_init safeMode mallocOk w).2)
  | Call.deinit =>
    (mdn_Logger_deinit safeMode w).map fun r => (some r.1, r.2)
  | Call.addOutputStream reallocOk streamConfig =>
    (mdn_Logger_addOutputStream safeMode reallocOk streamConfig w).map fun r => (some r.1, r.2)
  | Call.log host loggingLevel file line funcName format varargs =>
    (mdn_Logger_log host loggingLevel file line funcName format varargs w).map
      fun w1 => (none, w1)

/-- The effect of a sequence of calls made one after the other: the statuses returned, in
call order, and the final state. -/
def run (safeMode : Bool) : List Call → World → Option (List (Option mdn_Status_t) × World)
  | [], w => some ([], w)
  | c :: cs, w =>
    match step safeMode w c with
    | none => none
    | some (r, w1) =>
      match run safeMode cs w1 with
      | none => none
      | some (rs, w2) => some (r :: rs, w2)

/-- A call that is `mdn_Logger_addOutputStream` or `mdn_Logger_log`. -/
def Call.isAddOrLog : Call → Bool
  | Call.addOutputStream _ _ => true
  | Call.log _ _ _ _ _ _ _ => true
  | _ => false

/-! ## Predicates and reference texts used in the statements -/

/-- The three conditions safe mode demands of a stream configuration. -/
def ValidConfig (c : mdn_Logger_StreamConfig_t) : Prop :=
  c.stream ≠ 0 ∧ IS_VALID_LOGGING_LEVEL c.loggingLevel = true
    ∧ IS_VALID_LOGGING_FORMAT c.loggingFormat = true

instance (c : mdn_Logger_StreamConfig_t) : Decidable (ValidConfig c) := by
  unfold ValidConfig; infer_instance

/-- A registry whose count agrees with its array and whose entries are all valid. -/
def RegistryOk (st : Logger_InternalState_t) : Prop :=
  st.streamsArr.length = st.streamsArrLen ∧ ∀ c ∈ st.streamsArr, ValidConfig c

instance (st : Logger_InternalState_t) : Decidable (RegistryOk st) := by
  unfold RegistryOk; infer_instance

/-- A host whose local time always fits the 20-byte timestamp buffer. -/
def ClockFits (host : Host) : Prop :=
  ∀ tick, (strftime (host.localtime (host.reading tick).tv_sec)).isSome = true

/-- The text one call of `mdn_Logger_printTimestamp` sends to a stream. -/
def timestampText (host : Host) (tick : Nat) (includeDate : Bool) : Option (List Char) :=
  (strftime (host.localtime (host.reading tick).tv_sec)).map fun timestampBuf =>
    (if includeDate then timestampBuf else timestampBuf.drop 11)
      ++ '.' :: zeroPad 3 ((host.reading tick).tv_usec / 1000) ++ [Char.ofNat 32]

/-- The text one call of `mdn_Logger_logToScreen` sends to a stream, `message` being the
expanded message. -/
def screenText (host : Host) (tick : Nat) (loggingLevel : Int)
    (funcName message : List Char) : Option (List Char) :=
  (g_mdn_Logger_loggingLevelToColorMap loggingLevel).bind fun color =>
  (timestampText host tick false).map fun stamp =>
    g_Logger_colorToTerminalColorMap color ++ stamp
      ++ (leftJustify 20 funcName ++ [Char.ofNat 32]) ++ ['|', Char.ofNat 32] ++ message
      ++ g_Logger_colorToTerminalColorMap LOGGING_COLOR_RESET ++ [Char.ofNat 10]

/-- The text one call of `mdn_Logger_logToFile` sends to a stream. -/
def fileText (host : Host) (tick : Nat) (loggingLevel : Int)
    (funcName message : List Char) : Option (List Char) :=
  (timestampText host tick true).bind fun stamp =>
  (g_mdn_Logger_logLevelToStrMap loggingLevel).map fun name =>
    stamp ++ (leftJustify 8 name ++ [Char.ofNat 32])
      ++ (leftJustify 20 funcName ++ [Char.ofNat 32]) ++ ['|', Char.ofNat 32] ++ message
      ++ [Char.ofNat 10]

/-- The text the renderer selected by `loggingFormat` sends to a stream. -/
def lineText (host : Host) (tick : Nat) (loggingFormat loggingLevel : Int)
    (funcName message : List Char) : Option (List Char) :=
  if loggingFormat = MDN_LOGGER_LOGGING_FORMAT_SCREEN then
    screenText host tick loggingLevel funcName message
  else if loggingFormat = MDN_LOGGER_LOGGING_FORMAT_FILE then
    fileText host tick loggingLevel funcName message
  else none

/-- Appending `text` to a stream that accepts writes; a failing stream keeps its content. -/
def put (stream : Nat) (text : List Char) (fs : Nat → FILE) : Nat → FILE :=
  fun s => if s = stream ∧ (fs stream).error = false then
    { fs s with written := (fs s).written ++ text } else fs s

/-- A stream record after it has received `text`. -/
def FILE.receive (f : FILE) (text : List Char) : FILE :=
  { f with written := f.written ++ text }

/-- The lines owed to the stream `target` by the destinations `dests`, the first of which
has index `idx`: one line for each destination that names `target` and whose threshold
admits `loggingLevel`, in registry order. -/
def owed (host : Host) (loggingLevel : Int) (funcName message : List Char) (target : Nat) :
    Nat → List mdn_Logger_StreamConfig_t → List Char
  | _, [] => []
  | idx, c :: rest =>
    (if c.stream = target ∧ ¬ loggingLevel < c.loggingLevel then
        (lineText host idx c.loggingFormat loggingLevel funcName message).getD []
      else [])
      ++ owed host loggingLevel funcName message target (idx + 1) rest


/-! ## Sample data -/

/-- Streams that have received nothing and accept writes. -/
def sampleStreams : Nat → FILE := fun _ => { written := [], error := false }

/-- The state of a process that has not called the library yet. -/
def sampleWorld : World := { g_Logger_internalState := none, streams := sampleStreams }

/-- A host whose clock always reads 2026-10-31 07:05:09.123456 and whose message expansion
returns the format unchanged. -/
def sampleHost : Host :=
  { gettimeofday := fun _ => some { tv_sec := 0, tv_usec := 123456 },
    localtime := fun _ =>
      { tm_year := 126, tm_mon := 9, tm_mday := 31, tm_hour := 7, tm_min := 5, tm_sec := 9 },
    vformat := fun format _ => format }

/-- A file destination on stream 1 with threshold WARNING. -/
def fileAtWarning : mdn_Logger_StreamConfig_t :=
  { stream := 1, loggingLevel := MDN_LOGGER_LOGGING_LEVEL_WARNING,
    loggingFormat := MDN_LOGGER_LOGGING_FORMAT_FILE }

/-- A screen destination on stream 2 with threshold DEBUG. -/
def screenAtDebug : mdn_Logger_StreamConfig_t :=
  { stream := 2, loggingLevel := MDN_LOGGER_LOGGING_LEVEL_DEBUG,
    loggingFormat := MDN_LOGGER_LOGGING_FORMAT_SCREEN }

/-- The registry holding `fileAtWarning` then `screenAtDebug`. -/
def sampleRegistry : Logger_InternalState_t :=
  { streamsArr := [fileAtWarning, screenAtDebug], streamsArrLen := 2 }

/-- An initialised state with the two sample destinations registered. -/
def sampleLoaded : World :=
  { g_Logger_internalState := some sampleRegistry, streams := sampleStreams }

/-- A file destination on stream 1 with threshold DEBUG. -/
def fileAtDebug : mdn_Logger_StreamConfig_t :=
  { stream := 1, loggingLevel := MDN_LOGGER_LOGGING_LEVEL_DEBUG,
    loggingFormat := MDN_LOGGER_LOGGING_FORMAT_FILE }

/-- A second file destination on the same stream 1, with threshold CRITICAL. -/
def fileAtCritical : mdn_Logger_StreamConfig_t :=
  { stream := 1, loggingLevel := MDN_LOGGER_LOGGING_LEVEL_CRITICAL,
    loggingFormat := MDN_LOGGER_LOGGING_FORMAT_FILE }

/-- Streams that have received nothing, stream 1 being in a failing condition. -/
def sampleStreamsOneFailing : Nat → FILE :=
  fun s => { written := [], error := decide (s = 1) }

/-- The two sample destinations registered while stream 1 fails. -/
def sampleLoadedOneFailing : World :=
  { g_Logger_internalState := some sampleRegistry, streams := sampleStreamsOneFailing }

/-- The configuration of the test `streamConfigLoggingLevelTooBig`: a level equal to
`MDN_LOGGER_LOGGING_LEVEL_COUNT`. -/
def streamConfigLoggingLevelTooBig : mdn_Logger_StreamConfig_t :=
  { stream := 1, loggingLevel := MDN_LOGGER_LOGGING_LEVEL_COUNT,
    loggingFormat := MDN_LOGGER_LOGGING_FORMAT_FILE }

/-- An initialised state with an empty registry. -/
def sampleStarted : World :=
  { g_Logger_internalState := some { streamsArr := [], streamsArrLen := 0 },
    streams := sampleStreams }

/-- Two registrations followed by one CRITICAL log call. -/
def sampleCalls : List Call :=
  [Call.addOutputStream true fileAtWarning, Call.addOutputStream true screenAtDebug,
    Call.log sampleHost MDN_LOGGER_LOGGING_LEVEL_CRITICAL "main.c".toList 7 "main".toList
      "hello".toList []]

/-- The state `sampleCalls` leaves when made in safe mode on `sampleStarted`. -/
def sampleAfterCalls : World :=
  ((run true sampleCalls sampleStarted).map Prod.snd).getD sampleWorld

/-! ## Reference layouts -/

/-- The decimal numeral of `n` written with exactly `width` digits, the low-order ones. -/
def fixedDec : Nat → Nat → List Char
  | 0, _ => []
  | width + 1, n => fixedDec width (n / 10) ++ [Nat.digitChar (n % 10)]

/-- The layout `YYYY-MM-DD` of a local time. -/
def layoutDate (t : tm) : List Char :=
  fixedDec 4 (t.tm_year + 1900) ++ '-' :: fixedDec 2 (t.tm_mon + 1)
    ++ '-' :: fixedDec 2 t.tm_mday

/-- The layout `HH:MM:SS.mmm` of a local time and a count of microseconds. -/
def layoutTime (t : tm) (usec : Nat) : List Char :=
  fixedDec 2 t.tm_hour ++ ':' :: fixedDec 2 t.tm_min ++ ':' :: fixedDec 2 t.tm_sec
    ++ '.' :: fixedDec 3 (usec / 1000)

/-- A local time of the calendar whose year has four digits. -/
def CalendarTime (t : tm) : Prop :=
  t.tm_year + 1900 ≤ 9999 ∧ t.tm_mon ≤ 11 ∧ t.tm_mday ≤ 31 ∧ t.tm_hour ≤ 23
    ∧ t.tm_min ≤ 59 ∧ t.tm_sec ≤ 60

instance (t : tm) : Decidable (CalendarTime t) := by
  unfold CalendarTime; infer_instance

/-- A host whose clock always yields a calendar time and less than a million microseconds,
as `gettimeofday` and `localtime` do. -/
def CalendarClock (host : Host) : Prop :=
  ∀ tick, CalendarTime (host.localtime (host.reading tick).tv_sec)
    ∧ (host.reading tick).tv_usec < 1000000

/-- The fixed table of severity names, in the order of the severities. -/
def severityNames : List (List Char) :=
  ["DEBUG".toList, "INFO".toList, "WARNING".toList, "ERROR".toList, "CRITICAL".toList]

/-- The arguments of a CRITICAL call from `main` with the message `hello`, set up for the
destination of index 0. -/
def sampleArguments : mdn_Logger_logToStreamArguments_t :=
  { streamIndex := 0, loggingLevel := MDN_LOGGER_LOGGING_LEVEL_CRITICAL,
    file := "main.c".toList, line := 7, funcName := "main".toList,
    format := "hello".toList, args := [] }

/-- The sample call of `sampleArguments`, set up for the destination of index 1. -/
def sampleScreenArguments : mdn_Logger_logToStreamArguments_t :=
  { streamIndex := 1, loggingLevel := MDN_LOGGER_LOGGING_LEVEL_CRITICAL,
    file := "main.c".toList, line := 7, funcName := "main".toList,
    format := "hello".toList, args := [] }

/-- The fixed severity-to-colour table, in the order of the severities: gray `ESC[90m` for
DEBUG, reset `ESC[0m` for INFO, yellow `ESC[33m` for WARNING, red `ESC[31m` for ERROR,
magenta `ESC[35m` for CRITICAL. -/
def severityColourEscapes : List (List Char) :=
  [[Char.ofNat 27, '[', '9', '0', 'm'], [Char.ofNat 27, '[', '0', 'm'],
    [Char.ofNat 27, '[', '3', '3', 'm'], [Char.ofNat 27, '[', '3', '1', 'm'],
    [Char.ofNat 27, '[', '3', '5', 'm']]

/-- The reset code `ESC[0m`. -/
def resetEscape : List Char := [Char.ofNat 27, '[', '0', 'm']

/-- The sample call of `sampleArguments` made from a function whose name has 22
characters, as the names the test-suite logs under. -/
def sampleLongNameArguments : mdn_Logger_logToStreamArguments_t :=
  { streamIndex := 0, loggingLevel := MDN_LOGGER_LOGGING_LEVEL_CRITICAL,
    file := "main.c".toList, line := 7, funcName := "LoggerTest.PrintToFile".toList,
    format := "hello".toList, args := [] }

/-- The registrations that name the stream `target` and whose threshold admits
`loggingLevel`, each with its index in the registry, in registry order. -/
def admittedRegistrations (loggingLevel : Int) (target : Nat)
    (arr : List mdn_Logger_StreamConfig_t) : List (Nat × mdn_Logger_StreamConfig_t) :=
  arr.enum.filter fun p => decide (p.2.stream = target ∧ ¬ loggingLevel < p.2.loggingLevel)

/-- The registry holding `fileAtDebug`, `screenAtDebug` and `fileAtCritical`: stream 1 is
registered twice. -/
def sampleSharedRegistry : Logger_InternalState_t :=
  { streamsArr := [fileAtDebug, screenAtDebug, fileAtCritical], streamsArrLen := 3 }

/-- An initialised state with the registry `sampleSharedRegistry`. -/
def sampleSharedLoaded : World :=
  { g_Logger_internalState := some sampleSharedRegistry, streams := sampleStreams }

/-- A host with the clock of `sampleHost` whose message expansion appends the string
arguments to the format. -/
def sampleExpandingHost : Host :=
  { gettimeofday := fun _ => some { tv_sec := 0, tv_usec := 123456 },
    localtime := fun _ =>
      { tm_year := 126, tm_mon := 9, tm_mday := 31, tm_hour := 7, tm_min := 5, tm_sec := 9 },
    vformat := fun format args =>
      format ++ (args.map fun a => match a with
        | Arg.str value => value
        | Arg.int _ => []).flatten }

/-- A screen destination on stream 1 with threshold DEBUG. -/
def screenOnStreamOne : mdn_Logger_StreamConfig_t :=
  { stream := 1, loggingLevel := MDN_LOGGER_LOGGING_LEVEL_DEBUG,
    loggingFormat := MDN_LOGGER_LOGGING_FORMAT_SCREEN }

/-- The registry holding `fileAtDebug`, `screenAtDebug` and `screenOnStreamOne`: stream 1 is
registered once in each format. -/
def sampleMixedRegistry : Logger_InternalState_t :=
  { streamsArr := [fileAtDebug, screenAtDebug, screenOnStreamOne], streamsArrLen := 3 }

/-- An initialised state with the registry `sampleMixedRegistry`. -/
def sampleMixedLoaded : World :=
  { g_Logger_internalState := some sampleMixedRegistry, streams := sampleStreams }

/-! ## Build configuration -/

/-- Which floor-selection macros a build defines: `LOGGING_<X>_AND_ABOVE` for
`include/logger.h`, `MDN_LOGGER_SET_LEVEL_<X>` for `include/mdn/logger.h`.  The macro for
`NONE` is known to `include/mdn/logger.h` only. -/
structure BuildConfig where
  DEBUG : Bool
  INFO : Bool
  WARNING : Bool
  ERROR : Bool
  CRITICAL : Bool
  NONE : Bool
  deriving DecidableEq, Repr

/-- The guard of `include/logger.h`, lines 35-37: `true` when the build gets past it,
`false` when the `#error` directive is reached. -/
def logger_h_guard (b : BuildConfig) : Bool :=
  !(!b.DEBUG && !b.INFO && !b.WARNING && !b.ERROR && !b.CRITICAL)

/-- The guard of `include/mdn/logger.h`, lines 35-37. -/
def mdn_logger_h_guard (b : BuildConfig) : Bool :=
  !(!b.DEBUG && !b.INFO && !b.WARNING && !b.ERROR && !b.CRITICAL && !b.NONE)

/-- What `__FILE__`, `__LINE__` and `MDN_LOGGER_FUNC_NAME` stand for where a macro is used. -/
structure CallSite where
  file : List Char
  line : Int
  func : List Char
  deriving DecidableEq, Repr

/-- A call statement of `mdn_Logger_log`, by its arguments. -/
structure LogCall where
  loggingLevel : Int
  file : List Char
  line : Int
  funcName : List Char
  format : List Char
  varargs : List Arg
  deriving DecidableEq, Repr

/-- The macro `MDN_LOGGER_LOG_COMMON` (logger.h, line 40). -/
def MDN_LOGGER_LOG_COMMON (logLevel : Int) (site : CallSite) (format : List Char)
    (varargs : List Arg) : LogCall :=
  { loggingLevel := logLevel, file := site.file, line := site.line, funcName := site.func,
    format := format, varargs := varargs }

/-- The macro `MDN_LOGGER_LOG_DEBUG` (logger.h, lines 42-46): a call, or nothing. -/
def MDN_LOGGER_LOG_DEBUG (b : BuildConfig) (site : CallSite) (format : List Char)
    (varargs : List Arg) : Option LogCall :=
  if b.DEBUG then
    some (MDN_LOGGER_LOG_COMMON MDN_LOGGER_LOGGING_LEVEL_DEBUG site format varargs)
  else none

/-- The macro `MDN_LOGGER_LOG_INFO` (logger.h, lines 48-52). -/
def MDN_LOGGER_LOG_INFO (b : BuildConfig) (site : CallSite) (format : List Char)
    (varargs : List Arg) : Option LogCall :=
  if b.DEBUG || b.INFO then
    some (MDN_LOGGER_LOG_COMMON MDN_LOGGER_LOGGING_LEVEL_INFO site format varargs)
  else none

/-- The macro `MDN_LOGGER_LOG_WARNING` (logger.h, lines 54-58). -/
def MDN_LOGGER_LOG_WARNING (b : BuildConfig) (site : CallSite) (format : List Char)
    (varargs : List Arg) : Option LogCall :=
  if b.DEBUG || b.INFO || b.WARNING then
    some (MDN_LOGGER_LOG_COMMON MDN_LOGGER_LOGGING_LEVEL_WARNING site format varargs)
  else none

/-- The macro `MDN_LOGGER_LOG_ERROR` (logger.h, lines 60-64). -/
def MDN_LOGGER_LOG_ERROR (b : BuildConfig) (site : CallSite) (format : List Char)
    (varargs : List Arg) : Option LogCall :=
  if b.DEBUG || b.INFO || b.WARNING || b.ERROR then
    some (MDN_LOGGER_LOG_COMMON MDN_LOGGER_LOGGING_LEVEL_ERROR site format varargs)
  else none

/-- The macro `MDN_LOGGER_LOG_CRITICAL` (logger.h, lines 66-70). -/
def MDN_LOGGER_LOG_CRITICAL (b : BuildConfig) (site : CallSite) (format : List Char)
    (varargs : List Arg) : Option LogCall :=
  if b.DEBUG || b.INFO || b.WARNING || b.ERROR || b.CRITICAL then
    some (MDN_LOGGER_LOG_COMMON MDN_LOGGER_LOGGING_LEVEL_CRITICAL site format varargs)
  else none

/-- The macro `MDN_LOGGER_LOG_<L>` of the severity `loggingLevel`. -/
def expansionOf (loggingLevel : Int) (b : BuildConfig) (site : CallSite) (format : List Char)
    (varargs : List Arg) : Option LogCall :=
  if loggingLevel = MDN_LOGGER_LOGGING_LEVEL_DEBUG then
    MDN_LOGGER_LOG_DEBUG b site format varargs
  else if loggingLevel = MDN_LOGGER_LOGGING_LEVEL_INFO then
    MDN_LOGGER_LOG_INFO b site format varargs
  else if loggingLevel = MDN_LOGGER_LOGGING_LEVEL_WARNING then
    MDN_LOGGER_LOG_WARNING b site format varargs
  else if loggingLevel = MDN_LOGGER_LOGGING_LEVEL_ERROR then
    MDN_LOGGER_LOG_ERROR b site format varargs
  else if loggingLevel = MDN_LOGGER_LOGGING_LEVEL_CRITICAL then
    MDN_LOGGER_LOG_CRITICAL b site format varargs
  else none

/-- What running the expansion of a log macro does: the call it holds, or nothing at all. -/
def expansionEffect (host : Host) (expansion : Option LogCall) (w : World) : Option World :=
  match expansion with
  | none => some w
  | some call =>
    mdn_Logger_log host call.loggingLevel call.file call.line call.funcName call.format
      call.varargs w

/-- Whether a build defines the macro of the floor number `floor`: 0 to 4 for DEBUG to
CRITICAL, 5 for NONE. -/
def BuildConfig.defines (b : BuildConfig) : Nat → Bool
  | 0 => b.DEBUG
  | 1 => b.INFO
  | 2 => b.WARNING
  | 3 => b.ERROR
  | 4 => b.CRITICAL
  | 5 => b.NONE
  | _ => false

/-- The build that defines the macro of the floor number `floor` and no other. -/
def floorAlone (floor : Nat) : BuildConfig :=
  { DEBUG := decide (floor = 0), INFO := decide (floor = 1), WARNING := decide (floor = 2),
    ERROR := decide (floor = 3), CRITICAL := decide (floor = 4), NONE := decide (floor = 5) }

/-- A build that defines the macros of both DEBUG and ERROR. -/
def debugAndErrorBuild : BuildConfig :=
  { DEBUG := true, INFO := false, WARNING := false, ERROR := true, CRITICAL := false,
    NONE := false }

/-- A call site in `main.c`. -/
def sampleSite : CallSite := { file := "main.c".toList, line := 7, func := "main".toList }

/-- A build that defines none of the floor-selection macros. -/
def noFloorBuild : BuildConfig :=
  { DEBUG := false, INFO := false, WARNING := false, ERROR := false, CRITICAL := false,
    NONE := false }

/-! ## Auxiliary facts -/

theorem realloc_set_grow (l : List mdn_Logger_StreamConfig_t) (c : mdn_Logger_StreamConfig_t) :
    (l.take (l.length + 1) ++ List.replicate (l.length + 1 - l.length) indeterminate).set
      l.length c = l ++ [c] := by
  have h1 : l.take (l.length + 1) = l := List.take_of_length_le (Nat.le_succ _)
  have h2 : l.length + 1 - l.length = 1 := by omega
  rw [h1, h2]
  simp

/-- On a registry whose count agrees with its array, a successful
`mdn_Logger_addOutputStream` appends its argument and changes nothing else. -/
theorem addOutputStream_success_appends {safeMode reallocOk : Bool}
    {c : mdn_Logger_StreamConfig_t} {w w1 : World} {st : Logger_InternalState_t}
    (hg : w.g_Logger_internalState = some st)
    (hlen : st.streamsArr.length = st.streamsArrLen)
    (h : mdn_Logger_addOutputStream safeMode reallocOk c w = some (MDN_STATUS_SUCCESS, w1)) :
    w1 = { w with g_Logger_internalState := some ⟨st.streamsArr ++ [c], st.streamsArrLen + 1⟩ } := by
  unfold mdn_Logger_addOutputStream at h
  rw [hg] at h
  simp only at h
  split_ifs at h
  · simp at h
  · simp at h
  · simp at h
  · cases reallocOk
    · simp [MDN_MW_realloc] at h
    · simp only [MDN_MW_realloc, ↓reduceIte] at h
      rw [← hlen, realloc_set_grow] at h
      simp only [Option.some.injEq, Prod.mk.injEq, true_and] at h
      rw [← h, hlen]


/-- A run of `mdn_Logger_addOutputStream` calls that all succeed, started on a registry
whose count agrees with its array, appends the arguments in call order. -/
theorem run_adds_success (safeMode : Bool) :
    ∀ (calls : List (Bool × mdn_Logger_StreamConfig_t)) (w w1 : World)
      (st : Logger_InternalState_t) (sts : List (Option mdn_Status_t)),
      w.g_Logger_internalState = some st →
      st.streamsArr.length = st.streamsArrLen →
      run safeMode (calls.map fun c => Call.addOutputStream c.1 c.2) w = some (sts, w1) →
      (∀ s ∈ sts, s = some MDN_STATUS_SUCCESS) →
      w1.g_Logger_internalState
          = some ⟨st.streamsArr ++ calls.map Prod.snd, st.streamsArrLen + calls.length⟩
        ∧ w1.streams = w.streams := by
  intro calls
  induction calls with
  | nil =>
    intro w w1 st sts hg hlen hrun _
    simp only [List.map_nil, run, Option.some.injEq, Prod.mk.injEq] at hrun
    rw [← hrun.2, hg]
    simp
  | cons c rest ih =>
    intro w w1 st sts hg hlen hrun hacc
    simp only [List.map_cons, run, step] at hrun
    cases hadd : mdn_Logger_addOutputStream safeMode c.1 c.2 w with
    | none => simp [hadd] at hrun
    | some r =>
      obtain ⟨status, w2⟩ := r
      simp only [hadd, Option.map_some'] at hrun
      cases hrest : run safeMode (rest.map fun c => Call.addOutputStream c.1 c.2) w2 with
      | none => simp [hrest] at hrun
      | some r2 =>
        obtain ⟨rs, w3⟩ := r2
        simp only [hrest, Option.some.injEq, Prod.mk.injEq] at hrun
        obtain ⟨hsts, hw⟩ := hrun
        subst hsts hw
        have hs : status = MDN_STATUS_SUCCESS := by
          have := hacc (some status) (List.mem_cons_self _ _)
          exact Option.some.inj this
        subst hs
        have hw2 := addOutputStream_success_appends hg hlen hadd
        have hg2 : w2.g_Logger_internalState
            = some ⟨st.streamsArr ++ [c.2], st.streamsArrLen + 1⟩ := by rw [hw2]
        have hlen2 : (st.streamsArr ++ [c.2]).length = st.streamsArrLen + 1 := by
          simp [hlen]
        have hfin := ih w2 w3 _ rs hg2 hlen2 hrest
          (fun s hs => hacc s (List.mem_cons_of_mem _ hs))
        refine ⟨?_, ?_⟩
        · rw [hfin.1]
          simp [Nat.add_assoc, Nat.add_comm 1]
        · rw [hfin.2, hw2]

/-! ## Rendering -/

theorem fprintf_eq_put {stream : Nat} (text : List Char) (fs : Nat → FILE)
    (h : stream ≠ 0) : fprintf stream text fs = some (put stream text fs) := by
  unfold fprintf put
  rw [if_neg h]
  by_cases he : (fs stream).error = true
  · rw [if_pos he]
    congr 1
    funext s
    simp [he]
  · rw [if_neg he]
    congr 1
    funext s
    have : (fs stream).error = false := by simpa using he
    simp [this]

theorem put_put (stream : Nat) (t1 t2 : List Char) (fs : Nat → FILE) :
    put stream t2 (put stream t1 fs) = put stream (t1 ++ t2) fs := by
  funext s
  by_cases he : (fs stream).error = false <;> by_cases hs : s = stream <;>
    simp [put, he, hs, List.append_assoc]

theorem printTimestamp_eq {stream : Nat} (host : Host) (tick : Nat) (includeDate : Bool)
    (fs : Nat → FILE) (h : stream ≠ 0) :
    mdn_Logger_printTimestamp host tick stream includeDate fs
      = (timestampText host tick includeDate).map fun text => put stream text fs := by
  unfold mdn_Logger_printTimestamp timestampText
  simp only []
  cases strftime (host.localtime (host.reading tick).tv_sec) with
  | none => rfl
  | some buf => simp [fprintf_eq_put _ _ h]


theorem logToFile_eq (host : Host) (st : Logger_InternalState_t)
    (a : mdn_Logger_logToStreamArguments_t) (fs : Nat → FILE)
    {c : mdn_Logger_StreamConfig_t} (hi : st.streamsArr[a.streamIndex]? = some c)
    (h : c.stream ≠ 0) :
    mdn_Logger_logToFile host st a fs
      = (fileText host a.streamIndex a.loggingLevel a.funcName
          (host.vformat a.format a.args)).map fun text => put c.stream text fs := by
  unfold mdn_Logger_logToFile fileText mdn_Logger_printLoggingLevel mdn_Logger_printFuncName
    mdn_Logger_printSeparator
  rw [hi]
  simp only [printTimestamp_eq _ _ _ _ h]
  cases timestampText host a.streamIndex true with
  | none => rfl
  | some stamp =>
    cases g_mdn_Logger_logLevelToStrMap a.loggingLevel with
    | none => rfl
    | some name =>
      simp only [Option.map_some', Option.some_bind, fprintf_eq_put _ _ h, put_put,
        List.append_assoc]

theorem logToScreen_eq (host : Host) (st : Logger_InternalState_t)
    (a : mdn_Logger_logToStreamArguments_t) (fs : Nat → FILE)
    {c : mdn_Logger_StreamConfig_t} (hi : st.streamsArr[a.streamIndex]? = some c)
    (h : c.stream ≠ 0) :
    mdn_Logger_logToScreen host st a fs
      = (screenText host a.streamIndex a.loggingLevel a.funcName
          (host.vformat a.format a.args)).map fun text => put c.stream text fs := by
  unfold mdn_Logger_logToScreen screenText mdn_Logger_setColor mdn_Logger_printFuncName
    mdn_Logger_printSeparator
  rw [hi]
  simp only [printTimestamp_eq _ _ _ _ h]
  cases g_mdn_Logger_loggingLevelToColorMap a.loggingLevel with
  | none => rfl
  | some color =>
    cases timestampText host a.streamIndex false with
    | none => simp [fprintf_eq_put _ _ h]
    | some stamp =>
      simp only [Option.map_some', Option.some_bind, fprintf_eq_put _ _ h, put_put,
        List.append_assoc]

/-- Whichever renderer the format table selects, one call of it sends `lineText` to the
stream of the destination it is called for. -/
theorem logPrintFunc_eq (host : Host) (st : Logger_InternalState_t)
    (a : mdn_Logger_logToStreamArguments_t) (fs : Nat → FILE)
    {c : mdn_Logger_StreamConfig_t} {f : mdn_Logger_logPrintFunc}
    (hf : g_mdn_Logger_logFormatToFuncMap c.loggingFormat = some f)
    (hi : st.streamsArr[a.streamIndex]? = some c) (h : c.stream ≠ 0) :
    f host st a fs
      = (lineText host a.streamIndex c.loggingFormat a.loggingLevel a.funcName
          (host.vformat a.format a.args)).map fun text => put c.stream text fs := by
  unfold g_mdn_Logger_logFormatToFuncMap at hf
  unfold lineText
  split_ifs at hf with h0 h1
  · rw [if_pos h0, ← Option.some.inj hf]
    exact logToScreen_eq host st a fs hi h
  · rw [if_neg h0, if_pos h1, ← Option.some.inj hf]
    exact logToFile_eq host st a fs hi h


theorem valid_level_cases {l : Int} (h : IS_VALID_LOGGING_LEVEL l = true) :
    l = 0 ∨ l = 1 ∨ l = 2 ∨ l = 3 ∨ l = 4 := by
  simp only [IS_VALID_LOGGING_LEVEL, MDN_LOGGER_LOGGING_LEVEL_COUNT, Bool.and_eq_true,
    decide_eq_true_eq] at h
  omega

theorem valid_format_cases {f : Int} (h : IS_VALID_LOGGING_FORMAT f = true) :
    f = 0 ∨ f = 1 := by
  simp only [IS_VALID_LOGGING_FORMAT, MDN_LOGGER_LOGGING_FORMAT_COUNT, Bool.and_eq_true,
    decide_eq_true_eq] at h
  omega

theorem timestampText_some (host : Host) (hclock : ClockFits host) (tick : Nat)
    (includeDate : Bool) : ∃ stamp, timestampText host tick includeDate = some stamp := by
  unfold timestampText
  obtain ⟨buf, hbuf⟩ := Option.isSome_iff_exists.mp (hclock tick)
  rw [hbuf]
  exact ⟨_, rfl⟩

theorem colorMap_some {l : Int} (h : IS_VALID_LOGGING_LEVEL l = true) :
    ∃ color, g_mdn_Logger_loggingLevelToColorMap l = some color := by
  rcases valid_level_cases h with h | h | h | h | h <;> subst h <;> exact ⟨_, rfl⟩

theorem strMap_some {l : Int} (h : IS_VALID_LOGGING_LEVEL l = true) :
    ∃ name, g_mdn_Logger_logLevelToStrMap l = some name := by
  rcases valid_level_cases h with h | h | h | h | h <;> subst h <;> exact ⟨_, rfl⟩

/-- With a valid format, a valid severity and a clock that fits its buffer, the selected
renderer produces a text, and that text ends with the newline the renderer appends. -/
theorem lineText_some (host : Host) (hclock : ClockFits host) (tick : Nat)
    {loggingFormat loggingLevel : Int}
    (hf : IS_VALID_LOGGING_FORMAT loggingFormat = true)
    (hl : IS_VALID_LOGGING_LEVEL loggingLevel = true) (funcName message : List Char) :
    ∃ record, lineText host tick loggingFormat loggingLevel funcName message
      = some (record ++ [Char.ofNat 10]) := by
  obtain ⟨s1, hs1⟩ := timestampText_some host hclock tick false
  obtain ⟨s2, hs2⟩ := timestampText_some host hclock tick true
  obtain ⟨color, hcolor⟩ := colorMap_some hl
  obtain ⟨name, hname⟩ := strMap_some hl
  rcases valid_format_cases hf with hf | hf <;> subst hf
  · unfold lineText screenText
    rw [if_pos (show (0 : Int) = MDN_LOGGER_LOGGING_FORMAT_SCREEN from rfl), hcolor, hs1]
    exact ⟨_, rfl⟩
  · unfold lineText fileText
    rw [if_neg (by decide), if_pos (show (1 : Int) = MDN_LOGGER_LOGGING_FORMAT_FILE from rfl),
      hname, hs2]
    exact ⟨_, rfl⟩


/-! ## The dispatch loop -/

/-- The loop of `mdn_Logger_log`, run over a registry of valid entries from index `idx` to
the end, terminates normally and leaves in every stream that accepts writes what it held
before followed by the lines owed to it; a failing stream is left as it was. -/
theorem log_loop_eq (host : Host) (st : Logger_InternalState_t) (loggingLevel : Int)
    (file : List Char) (line : Int) (funcName format : List Char) (varargs : List Arg)
    (hvalid : ∀ c ∈ st.streamsArr, ValidConfig c)
    (hl : IS_VALID_LOGGING_LEVEL loggingLevel = true) (hclock : ClockFits host) :
    ∀ (remaining idx : Nat) (fs : Nat → FILE), idx + remaining = st.streamsArr.length →
      ∃ fs1, mdn_Logger_log_loop host st loggingLevel file line funcName format varargs
            remaining idx fs = some fs1
        ∧ ∀ t, fs1 t = if (fs t).error = false then
            (fs t).receive (owed host loggingLevel funcName (host.vformat format varargs) t
              idx (st.streamsArr.drop idx))
          else fs t := by
  intro remaining
  induction remaining with
  | zero =>
    intro idx fs hidx
    refine ⟨fs, rfl, ?_⟩
    intro t
    have hdrop : st.streamsArr.drop idx = [] := List.drop_of_length_le (by omega)
    rw [hdrop]
    simp [owed, FILE.receive]
  | succ n ih =>
    intro idx fs hidx
    have hlt : idx < st.streamsArr.length := by omega
    have hget : st.streamsArr[idx]? = some st.streamsArr[idx] := List.getElem?_eq_getElem hlt
    have hdrop : st.streamsArr.drop idx = st.streamsArr[idx] :: st.streamsArr.drop (idx + 1) :=
      List.drop_eq_getElem_cons hlt
    have hc : ValidConfig st.streamsArr[idx] := hvalid _ (List.getElem_mem hlt)
    generalize st.streamsArr[idx] = c at hget hdrop hc
    unfold mdn_Logger_log_loop
    rw [hget, hdrop]
    simp only []
    by_cases hthr : loggingLevel < c.loggingLevel
    · rw [if_pos hthr]
      obtain ⟨fs1, h1, h2⟩ := ih (idx + 1) fs (by omega)
      refine ⟨fs1, h1, ?_⟩
      intro t
      rw [h2 t]
      simp [owed, hthr, FILE.receive]
    · rw [if_neg hthr]
      obtain ⟨hstream, _, hfmt⟩ := hc
      obtain ⟨f, hf⟩ : ∃ f, g_mdn_Logger_logFormatToFuncMap c.loggingFormat = some f := by
        unfold g_mdn_Logger_logFormatToFuncMap
        rcases valid_format_cases hfmt with h | h <;> rw [h]
        · exact ⟨_, rfl⟩
        · exact ⟨_, rfl⟩
      obtain ⟨record, hrec⟩ := lineText_some host hclock idx hfmt hl funcName
        (host.vformat format varargs)
      rw [hf]
      simp only []
      rw [logPrintFunc_eq host st _ fs hf hget hstream]
      simp only [hrec, Option.map_some']
      obtain ⟨fs1, h1, h2⟩ := ih (idx + 1) (put c.stream (record ++ [Char.ofNat 10]) fs)
        (by omega)
      refine ⟨fs1, h1, ?_⟩
      intro t
      rw [h2 t]
      by_cases ht : t = c.stream
      · subst ht
        by_cases he : (fs c.stream).error = false
        · simp [put, owed, he, hthr, hrec, List.append_assoc, FILE.receive]
        · simp [put, he]
      · have ht2 : ¬ c.stream = t := fun h => ht h.symm
        simp [put, owed, ht, ht2, FILE.receive]


/-- On a registry of valid entries, with a valid severity and a clock that fits its buffer,
`mdn_Logger_log` returns, leaves the registry alone, and leaves in every stream that
accepts writes what it held before followed by the lines owed to it. -/
theorem log_eq (host : Host) (loggingLevel : Int) (file : List Char) (line : Int)
    (funcName format : List Char) (varargs : List Arg) (w : World)
    {st : Logger_InternalState_t} (hg : w.g_Logger_internalState = some st)
    (hok : RegistryOk st) (hl : IS_VALID_LOGGING_LEVEL loggingLevel = true)
    (hclock : ClockFits host) :
    ∃ w1, mdn_Logger_log host loggingLevel file line funcName format varargs w = some w1
      ∧ w1.g_Logger_internalState = w.g_Logger_internalState
      ∧ ∀ t, w1.streams t = if (w.streams t).error = false then
          (w.streams t).receive
            (owed host loggingLevel funcName (host.vformat format varargs) t 0 st.streamsArr)
        else w.streams t := by
  obtain ⟨hlen, hvalid⟩ := hok
  obtain ⟨fs1, h1, h2⟩ := log_loop_eq host st loggingLevel file line funcName format varargs
    hvalid hl hclock st.streamsArrLen 0 w.streams (by omega)
  refine ⟨{ w with streams := fs1 }, ?_, rfl, ?_⟩
  · unfold mdn_Logger_log
    rw [hg]
    simp only [h1]
  · intro t
    show fs1 t = _
    rw [h2 t, List.drop_zero]

theorem owed_eq_nil (host : Host) (loggingLevel : Int) (funcName message : List Char)
    (target : Nat) : ∀ (l : List mdn_Logger_StreamConfig_t) (idx : Nat),
      (∀ c ∈ l, c.stream ≠ target) →
      owed host loggingLevel funcName message target idx l = [] := by
  intro l
  induction l with
  | nil => intro idx _; rfl
  | cons c rest ih =>
    intro idx h
    have hc : c.stream ≠ target := h c (List.mem_cons_self _ _)
    simp only [owed, hc, false_and, if_false, List.nil_append]
    exact ih (idx + 1) (fun c1 hc1 => h c1 (List.mem_cons_of_mem _ hc1))

/-- When the destination of index `i` is the only one that names its stream, what the
registry owes that stream is that destination's line, or nothing when its threshold
excludes the severity. -/
theorem owed_unshared (host : Host) (loggingLevel : Int) (funcName message : List Char)
    (cfg : mdn_Logger_StreamConfig_t) :
    ∀ (l : List mdn_Logger_StreamConfig_t) (idx i : Nat), l[i]? = some cfg →
      (∀ j c, l[j]? = some c → j ≠ i → c.stream ≠ cfg.stream) →
      owed host loggingLevel funcName message cfg.stream idx l
        = if loggingLevel < cfg.loggingLevel then []
          else (lineText host (idx + i) cfg.loggingFormat loggingLevel funcName message).getD
            [] := by
  intro l
  induction l with
  | nil => intro idx i hi; simp at hi
  | cons c rest ih =>
    intro idx i hi hun
    cases i with
    | zero =>
      simp only [List.getElem?_cons_zero, Option.some.injEq] at hi
      subst hi
      have hrest : ∀ c1 ∈ rest, c1.stream ≠ c.stream := by
        intro c1 hc1
        obtain ⟨k, hk, hkc⟩ := List.getElem_of_mem hc1
        have hk2 : (c :: rest)[k + 1]? = some c1 := by
          simp [List.getElem?_eq_getElem hk, hkc]
        exact hun (k + 1) c1 hk2 (by omega)
      simp only [owed, owed_eq_nil host loggingLevel funcName message c.stream rest (idx + 1)
        hrest, List.append_nil, true_and, Nat.add_zero]
      by_cases hthr : loggingLevel < c.loggingLevel <;> simp [hthr]
    | succ k =>
      have hc : c.stream ≠ cfg.stream := hun 0 c (by simp) (by omega)
      have hi2 : rest[k]? = some cfg := by simpa using hi
      have hun2 : ∀ j c1, rest[j]? = some c1 → j ≠ k → c1.stream ≠ cfg.stream := by
        intro j c1 hj hjk
        exact hun (j + 1) c1 (by simpa using hj) (by omega)
      simp only [owed, hc, false_and, if_false, List.nil_append]
      rw [ih (idx + 1) k hi2 hun2]
      have : idx + 1 + k = idx + (k + 1) := by omega
      rw [this]


theorem sampleHost_clockFits : ClockFits sampleHost := by
  intro tick
  show (strftime ⟨126, 9, 31, 7, 5, 9⟩).isSome = true
  decide

theorem owed_split (host : Host) (loggingLevel : Int) (funcName message : List Char)
    (cfg : mdn_Logger_StreamConfig_t) (text : List Char) :
    ∀ (l : List mdn_Logger_StreamConfig_t) (idx j : Nat), l[j]? = some cfg →
      ¬ loggingLevel < cfg.loggingLevel →
      lineText host (idx + j) cfg.loggingFormat loggingLevel funcName message = some text →
      owed host loggingLevel funcName message cfg.stream idx l
        = owed host loggingLevel funcName message cfg.stream idx (l.take j) ++ text
          ++ owed host loggingLevel funcName message cfg.stream (idx + j + 1)
              (l.drop (j + 1)) := by
  intro l
  induction l with
  | nil => intro idx j hj; simp at hj
  | cons c rest ih =>
    intro idx j hj hthr htext
    cases j with
    | zero =>
      simp only [List.getElem?_cons_zero, Option.some.injEq] at hj
      subst hj
      simp only [Nat.add_zero] at htext
      simp [owed, hthr, htext]
    | succ k =>
      have hj2 : rest[k]? = some cfg := by simpa using hj
      have hidx : idx + 1 + k = idx + (k + 1) := by omega
      have := ih (idx + 1) k hj2 hthr (by rw [hidx]; exact htext)
      simp only [List.take_succ_cons, List.drop_succ_cons, owed, this, List.append_assoc]
      have h2 : idx + 1 + k + 1 = idx + (k + 1) + 1 := by omega
      rw [h2]


/-! ## Calls that keep the registry -/

theorem addOutputStream_keeps_registry_present {safeMode reallocOk : Bool}
    {streamConfig : mdn_Logger_StreamConfig_t} {w w1 : World} {status : mdn_Status_t}
    (hg : w.g_Logger_internalState.isSome = true)
    (h : mdn_Logger_addOutputStream safeMode reallocOk streamConfig w = some (status, w1)) :
    w1.g_Logger_internalState.isSome = true := by
  obtain ⟨st, hst⟩ := Option.isSome_iff_exists.mp hg
  unfold mdn_Logger_addOutputStream at h
  rw [hst] at h
  simp only at h
  split_ifs at h
  · simp only [Option.some.injEq, Prod.mk.injEq] at h
    rw [← h.2]; exact hg
  · simp only [Option.some.injEq, Prod.mk.injEq] at h
    rw [← h.2]; exact hg
  · simp only [Option.some.injEq, Prod.mk.injEq] at h
    rw [← h.2]; exact hg
  · cases reallocOk
    · simp only [MDN_MW_realloc, Bool.false_eq_true, ↓reduceIte, Option.some.injEq,
        Prod.mk.injEq] at h
      rw [← h.2]; rfl
    · simp only [MDN_MW_realloc, ↓reduceIte, Option.some.injEq, Prod.mk.injEq] at h
      rw [← h.2]; rfl

theorem log_keeps_registry {host : Host} {loggingLevel : Int} {file : List Char} {line : Int}
    {funcName format : List Char} {varargs : List Arg} {w w1 : World}
    (h : mdn_Logger_log host loggingLevel file line funcName format varargs w = some w1) :
    w1.g_Logger_internalState = w.g_Logger_internalState := by
  unfold mdn_Logger_log at h
  cases hg : w.g_Logger_internalState with
  | none => simp [hg] at h
  | some st =>
    simp only [hg] at h
    cases hloop : mdn_Logger_log_loop host st loggingLevel file line funcName format varargs
        st.streamsArrLen 0 w.streams with
    | none => simp [hloop] at h
    | some fs =>
      simp only [hloop, Option.some.injEq] at h
      rw [← h]

/-- A run of `mdn_Logger_addOutputStream` and `mdn_Logger_log` calls started with a registry
ends with a registry. -/
theorem run_keeps_registry_present (safeMode : Bool) :
    ∀ (calls : List Call) (w w1 : World) (sts : List (Option mdn_Status_t)),
      (∀ c ∈ calls, c.isAddOrLog = true) →
      w.g_Logger_internalState.isSome = true →
      run safeMode calls w = some (sts, w1) →
      w1.g_Logger_internalState.isSome = true := by
  intro calls
  induction calls with
  | nil =>
    intro w w1 sts _ hg hrun
    simp only [run, Option.some.injEq, Prod.mk.injEq] at hrun
    rw [← hrun.2]; exact hg
  | cons c rest ih =>
    intro w w1 sts hcalls hg hrun
    simp only [run] at hrun
    cases hstep : step safeMode w c with
    | none => simp [hstep] at hrun
    | some r =>
      obtain ⟨status, w2⟩ := r
      simp only [hstep] at hrun
      cases hrest : run safeMode rest w2 with
      | none => simp [hrest] at hrun
      | some r2 =>
        obtain ⟨rs, w3⟩ := r2
        simp only [hrest, Option.some.injEq, Prod.mk.injEq] at hrun
        rw [← hrun.2]
        have hg2 : w2.g_Logger_internalState.isSome = true := by
          have hc := hcalls c (List.mem_cons_self _ _)
          cases c with
          | init mallocOk => simp [Call.isAddOrLog] at hc
          | deinit => simp [Call.isAddOrLog] at hc
          | addOutputStream reallocOk streamConfig =>
            simp only [step] at hstep
            cases hadd : mdn_Logger_addOutputStream safeMode reallocOk streamConfig w with
            | none => simp [hadd] at hstep
            | some r3 =>
              obtain ⟨s3, w4⟩ := r3
              simp only [hadd, Option.map_some', Option.some.injEq, Prod.mk.injEq] at hstep
              rw [← hstep.2]
              exact addOutputStream_keeps_registry_present hg hadd
          | log host loggingLevel file line funcName format varargs =>
            simp only [step] at hstep
            cases hlog : mdn_Logger_log host loggingLevel file line funcName format varargs w with
            | none => simp [hlog] at hstep
            | some w4 =>
              simp only [hlog, Option.map_some', Option.some.injEq, Prod.mk.injEq] at hstep
              rw [← hstep.2, log_keeps_registry hlog]
              exact hg
        exact ih w2 w3 rs (fun c1 hc1 => hcalls c1 (List.mem_cons_of_mem _ hc1)) hg2 hrest

/-! ## Properties of the specification -/

/-- C1.  Starting from a successful `mdn_Logger_init`, after any sequence of
`mdn_Logger_addOutputStream` calls that all return `MDN_STATUS_SUCCESS` the registry holds
exactly the arguments of those calls, in call order, its count is the number of calls,
and no stream has been written to.  (Taken at every prefix of the sequence, this says that
each successful call appends its argument, raises the count by one and leaves the earlier
entries in place.) -/
theorem C1_addOutputStream_insertion_order (safeMode mallocOk : Bool) (w0 w1 w : World)
    (calls : List (Bool × mdn_Logger_StreamConfig_t)) (sts : List (Option mdn_Status_t))
    (hinit : mdn_Logger_init safeMode mallocOk w0 = (MDN_STATUS_SUCCESS, w1))
    (hrun : run safeMode (calls.map fun c => Call.addOutputStream c.1 c.2) w1 = some (sts, w))
    (hacc : ∀ s ∈ sts, s = some MDN_STATUS_SUCCESS) :
    w.g_Logger_internalState
        = some { streamsArr := calls.map Prod.snd, streamsArrLen := calls.length }
      ∧ (∀ i (h : i < calls.length),
          (w.g_Logger_internalState.map fun st => st.streamsArr[i]?)
            = some (some (calls.get ⟨i, h⟩).2))
      ∧ w.streams = w0.streams := by
  have hw1 : w1 = { w0 with g_Logger_internalState := some ⟨[], 0⟩ } := by
    unfold mdn_Logger_init at hinit
    split_ifs at hinit
    · simp at hinit
    · cases mallocOk
      · simp [MDN_MW_malloc] at hinit
      · simp only [MDN_MW_malloc, ↓reduceIte, Prod.mk.injEq, true_and] at hinit
        exact hinit.symm
  have hg1 : w1.g_Logger_internalState = some ⟨[], 0⟩ := by rw [hw1]
  have hw := run_adds_success safeMode calls w1 w ⟨[], 0⟩ sts hg1 rfl hrun hacc
  have hg : w.g_Logger_internalState = some ⟨calls.map Prod.snd, calls.length⟩ := by
    rw [hw.1]; simp
  refine ⟨hg, ?_, ?_⟩
  · intro i h
    rw [hg]
    simp [List.getElem?_eq_getElem, h]
  · rw [hw.2, hw1]


/-- C1, at a concrete input: two accepted registrations after a successful start. -/
theorem C1_addOutputStream_insertion_order_witness :
    sampleLoaded.g_Logger_internalState
        = some { streamsArr := [fileAtWarning, screenAtDebug], streamsArrLen := 2 }
      ∧ (∀ i (h : i < [(true, fileAtWarning), (true, screenAtDebug)].length),
          (sampleLoaded.g_Logger_internalState.map fun st => st.streamsArr[i]?)
            = some (some ([(true, fileAtWarning), (true, screenAtDebug)].get ⟨i, h⟩).2))
      ∧ sampleLoaded.streams = sampleWorld.streams :=
  C1_addOutputStream_insertion_order true true sampleWorld
    { g_Logger_internalState := some ⟨[], 0⟩, streams := sampleStreams } sampleLoaded
    [(true, fileAtWarning), (true, screenAtDebug)]
    [some MDN_STATUS_SUCCESS, some MDN_STATUS_SUCCESS] rfl rfl (by decide)



/-- C2, as stated, fails when two destinations share a stream.  After a start and the
registration of `fileAtDebug` then `fileAtCritical`, both on stream 1, one INFO call leaves
one line in stream 1, although INFO lies below the threshold of the second destination,
whose target stream 1 is. -/
theorem C2_counterexample_shared_target :
    (run true
        [Call.init true, Call.addOutputStream true fileAtDebug,
          Call.addOutputStream true fileAtCritical,
          Call.log sampleHost MDN_LOGGER_LOGGING_LEVEL_INFO "main.c".toList 7 "main".toList
            "hello".toList []]
        sampleWorld).map (fun r => (r.1, r.2.g_Logger_internalState, (r.2.streams 1).written))
      = some ([some MDN_STATUS_SUCCESS, some MDN_STATUS_SUCCESS, some MDN_STATUS_SUCCESS, none],
          some { streamsArr := [fileAtDebug, fileAtCritical], streamsArrLen := 2 },
          "2026-10-31 07:05:09.123 INFO     main                 | hello".toList
            ++ [Char.ofNat 10])
    ∧ [fileAtDebug, fileAtCritical][1]? = some fileAtCritical
    ∧ fileAtCritical.stream = 1
    ∧ MDN_LOGGER_LOGGING_LEVEL_INFO < fileAtCritical.loggingLevel
    ∧ (sampleWorld.streams 1).written = [] := by
  refine ⟨?_, rfl, rfl, by decide, rfl⟩
  decide

/-- C2, amended.  Take a registry of valid entries, a valid severity `L`, and a registered
destination whose stream accepts writes and is named by no other registered destination.
Then `mdn_Logger_log` returns; if `L` lies below the threshold of the destination its
stream is left with exactly what it held; otherwise (the threshold is inclusive) the
stream receives exactly what one call of the renderer of the destination produces, a
record followed by the newline the renderer appends. -/
theorem C2_threshold_unshared_target (host : Host) (loggingLevel : Int) (file : List Char)
    (line : Int) (funcName format : List Char) (varargs : List Arg) (w : World)
    (st : Logger_InternalState_t) (i : Nat) (cfg : mdn_Logger_StreamConfig_t)
    (hg : w.g_Logger_internalState = some st) (hok : RegistryOk st)
    (hl : IS_VALID_LOGGING_LEVEL loggingLevel = true) (hclock : ClockFits host)
    (hi : st.streamsArr[i]? = some cfg)
    (hun : ∀ j c, st.streamsArr[j]? = some c → j ≠ i → c.stream ≠ cfg.stream)
    (hwr : (w.streams cfg.stream).error = false) :
    ∃ w1, mdn_Logger_log host loggingLevel file line funcName format varargs w = some w1
      ∧ (loggingLevel < cfg.loggingLevel →
          (w1.streams cfg.stream).written = (w.streams cfg.stream).written)
      ∧ (cfg.loggingLevel ≤ loggingLevel →
          ∃ record,
            lineText host i cfg.loggingFormat loggingLevel funcName
                (host.vformat format varargs) = some (record ++ [Char.ofNat 10])
            ∧ (w1.streams cfg.stream).written
                = (w.streams cfg.stream).written ++ (record ++ [Char.ofNat 10])) := by
  obtain ⟨w1, hlog, _, hstreams⟩ :=
    log_eq host loggingLevel file line funcName format varargs w hg hok hl hclock
  have howed := owed_unshared host loggingLevel funcName (host.vformat format varargs) cfg
    st.streamsArr 0 i hi hun
  have hcfg : ValidConfig cfg := hok.2 cfg (List.getElem?_mem hi)
  refine ⟨w1, hlog, ?_, ?_⟩
  · intro hlt
    rw [hstreams, if_pos hwr, howed, if_pos hlt]
    simp [FILE.receive]
  · intro hge
    obtain ⟨record, hrec⟩ := lineText_some host hclock i hcfg.2.2 hl funcName
      (host.vformat format varargs)
    refine ⟨record, hrec, ?_⟩
    rw [hstreams, if_pos hwr, howed, if_neg (not_lt.mpr hge), Nat.zero_add, hrec]
    rfl


/-- C2 amended, at a concrete input: a CRITICAL call on the two sample destinations, seen
from the file destination with threshold WARNING on stream 1. -/
theorem C2_threshold_unshared_target_witness :
    RegistryOk sampleRegistry
      ∧ ∃ w1, mdn_Logger_log sampleHost MDN_LOGGER_LOGGING_LEVEL_CRITICAL "main.c".toList 7
            "main".toList "hello".toList [] sampleLoaded = some w1
        ∧ (MDN_LOGGER_LOGGING_LEVEL_CRITICAL < fileAtWarning.loggingLevel →
            (w1.streams fileAtWarning.stream).written
              = (sampleLoaded.streams fileAtWarning.stream).written)
        ∧ (fileAtWarning.loggingLevel ≤ MDN_LOGGER_LOGGING_LEVEL_CRITICAL →
            ∃ record,
              lineText sampleHost 0 fileAtWarning.loggingFormat
                  MDN_LOGGER_LOGGING_LEVEL_CRITICAL "main".toList
                  (sampleHost.vformat "hello".toList []) = some (record ++ [Char.ofNat 10])
              ∧ (w1.streams fileAtWarning.stream).written
                  = (sampleLoaded.streams fileAtWarning.stream).written
                    ++ (record ++ [Char.ofNat 10])) :=
  ⟨by decide,
    C2_threshold_unshared_target sampleHost MDN_LOGGER_LOGGING_LEVEL_CRITICAL "main.c".toList 7
      "main".toList "hello".toList [] sampleLoaded sampleRegistry 0 fileAtWarning rfl
      (by decide) rfl sampleHost_clockFits rfl
      (by
        intro j c hj hne
        rcases j with _ | _ | j
        · exact absurd rfl hne
        · simp only [sampleRegistry, List.getElem?_cons_succ, List.getElem?_cons_zero,
            Option.some.injEq] at hj
          subst hj
          decide
        · simp [sampleRegistry] at hj)
      rfl⟩

/-- C3.  On an initialised registry, whatever it holds, when the reallocation inside
`mdn_Logger_addOutputStream` returns `NULL` (which presupposes that the safe-mode checks
let the call reach it) the call returns `MDN_STATUS_ERROR_MEM_ALLOC` and leaves the whole
state as it was, registry and streams; hence any later `mdn_Logger_log` behaves as it would
have without the failed call. -/
theorem C3_realloc_failure_keeps_registry (safeMode : Bool)
    (streamConfig : mdn_Logger_StreamConfig_t) (w : World) (st : Logger_InternalState_t)
    (hg : w.g_Logger_internalState = some st)
    (hreach : safeMode = true → ValidConfig streamConfig) :
    ∃ w1, mdn_Logger_addOutputStream safeMode false streamConfig w
          = some (MDN_STATUS_ERROR_MEM_ALLOC, w1)
      ∧ w1.g_Logger_internalState = some st
      ∧ w1.streams = w.streams
      ∧ ∀ (host : Host) (loggingLevel : Int) (file : List Char) (line : Int)
          (funcName format : List Char) (varargs : List Arg),
          (mdn_Logger_log host loggingLevel file line funcName format varargs w1).map
              (fun w2 => (w2.g_Logger_internalState, w2.streams))
            = (mdn_Logger_log host loggingLevel file line funcName format varargs w).map
              (fun w2 => (w2.g_Logger_internalState, w2.streams)) := by
  have hstep : mdn_Logger_addOutputStream safeMode false streamConfig w
      = some (MDN_STATUS_ERROR_MEM_ALLOC, w) := by
    unfold mdn_Logger_addOutputStream
    rw [hg]
    cases safeMode with
    | false =>
      cases w
      simp only [MDN_MW_realloc] at hg ⊢
      simp [hg]
    | true =>
      obtain ⟨h1, h2, h3⟩ := hreach rfl
      cases w
      simp only [MDN_MW_realloc] at hg ⊢
      simp [h1, h2, h3, hg]
  exact ⟨w, hstep, hg, rfl, fun _ _ _ _ _ _ _ => rfl⟩

/-- C3, at a concrete input: a failed reallocation on the registry of two destinations. -/
theorem C3_realloc_failure_keeps_registry_witness :
    ∃ w1, mdn_Logger_addOutputStream true false fileAtDebug sampleLoaded
          = some (MDN_STATUS_ERROR_MEM_ALLOC, w1)
      ∧ w1.g_Logger_internalState = some sampleRegistry
      ∧ w1.streams = sampleLoaded.streams
      ∧ ∀ (host : Host) (loggingLevel : Int) (file : List Char) (line : Int)
          (funcName format : List Char) (varargs : List Arg),
          (mdn_Logger_log host loggingLevel file line funcName format varargs w1).map
              (fun w2 => (w2.g_Logger_internalState, w2.streams))
            = (mdn_Logger_log host loggingLevel file line funcName format varargs
                sampleLoaded).map (fun w2 => (w2.g_Logger_internalState, w2.streams)) :=
  C3_realloc_failure_keeps_registry true fileAtDebug sampleLoaded sampleRegistry rfl
    (fun _ => by decide)

/-- C4.  In safe mode, on an initialised registry, `mdn_Logger_addOutputStream` returns
`MDN_STATUS_ERROR_BAD_ARGUMENT` exactly when the stream is `NULL`, or the logging level is
negative or at least `MDN_LOGGER_LOGGING_LEVEL_COUNT`, or the logging format is negative or
at least `MDN_LOGGER_LOGGING_FORMAT_COUNT`; and a call that returns this status leaves the
state as it was. -/
theorem C4_bad_argument_iff (reallocOk : Bool) (streamConfig : mdn_Logger_StreamConfig_t)
    (w : World) (st : Logger_InternalState_t) (hg : w.g_Logger_internalState = some st) :
    ((mdn_Logger_addOutputStream true reallocOk streamConfig w).map Prod.fst
          = some MDN_STATUS_ERROR_BAD_ARGUMENT
        ↔ (streamConfig.stream = 0
            ∨ streamConfig.loggingLevel < 0
            ∨ MDN_LOGGER_LOGGING_LEVEL_COUNT ≤ streamConfig.loggingLevel
            ∨ streamConfig.loggingFormat < 0
            ∨ MDN_LOGGER_LOGGING_FORMAT_COUNT ≤ streamConfig.loggingFormat))
      ∧ ∀ w1, mdn_Logger_addOutputStream true reallocOk streamConfig w
            = some (MDN_STATUS_ERROR_BAD_ARGUMENT, w1) → w1 = w := by
  unfold mdn_Logger_addOutputStream
  rw [hg]
  simp only [Bool.true_and]
  by_cases h1 : streamConfig.stream = 0
  · simp [h1]
  · by_cases h2 : IS_VALID_LOGGING_LEVEL streamConfig.loggingLevel = true
    · by_cases h3 : IS_VALID_LOGGING_FORMAT streamConfig.loggingFormat = true
      · have h2a := h2
        have h3a := h3
        simp only [IS_VALID_LOGGING_LEVEL, IS_VALID_LOGGING_FORMAT, Bool.and_eq_true,
          decide_eq_true_eq] at h2a h3a
        have hno : ¬ (streamConfig.stream = 0
            ∨ streamConfig.loggingLevel < 0
            ∨ MDN_LOGGER_LOGGING_LEVEL_COUNT ≤ streamConfig.loggingLevel
            ∨ streamConfig.loggingFormat < 0
            ∨ MDN_LOGGER_LOGGING_FORMAT_COUNT ≤ streamConfig.loggingFormat) := by
          rintro (h | h | h | h | h)
          · exact h1 h
          · omega
          · omega
          · omega
          · omega
        cases reallocOk <;> simp [h1, h2, h3, MDN_MW_realloc, hno] <;>
          exact ⟨h2a.1, h2a.2, h3a.1, h3a.2⟩
      · have h3a := h3
        simp only [IS_VALID_LOGGING_FORMAT, Bool.and_eq_true, decide_eq_true_eq,
          not_and_or, not_le, not_lt] at h3a
        have hyes : streamConfig.loggingFormat < 0
            ∨ MDN_LOGGER_LOGGING_FORMAT_COUNT ≤ streamConfig.loggingFormat := h3a
        simp [h1, h2, h3, hyes]
    · have h2a := h2
      simp only [IS_VALID_LOGGING_LEVEL, Bool.and_eq_true, decide_eq_true_eq,
        not_and_or, not_le, not_lt] at h2a
      have hyes : streamConfig.loggingLevel < 0
          ∨ MDN_LOGGER_LOGGING_LEVEL_COUNT ≤ streamConfig.loggingLevel := h2a
      rcases hyes with hy | hy <;> simp [h1, h2, hy]


/-- C4, at a concrete input: the level `MDN_LOGGER_LOGGING_LEVEL_COUNT` is rejected. -/
theorem C4_bad_argument_iff_witness :
    ((mdn_Logger_addOutputStream true true streamConfigLoggingLevelTooBig sampleLoaded).map
          Prod.fst = some MDN_STATUS_ERROR_BAD_ARGUMENT
        ↔ (streamConfigLoggingLevelTooBig.stream = 0
            ∨ streamConfigLoggingLevelTooBig.loggingLevel < 0
            ∨ MDN_LOGGER_LOGGING_LEVEL_COUNT ≤ streamConfigLoggingLevelTooBig.loggingLevel
            ∨ streamConfigLoggingLevelTooBig.loggingFormat < 0
            ∨ MDN_LOGGER_LOGGING_FORMAT_COUNT ≤ streamConfigLoggingLevelTooBig.loggingFormat))
      ∧ ∀ w1, mdn_Logger_addOutputStream true true streamConfigLoggingLevelTooBig sampleLoaded
            = some (MDN_STATUS_ERROR_BAD_ARGUMENT, w1) → w1 = sampleLoaded :=
  C4_bad_argument_iff true streamConfigLoggingLevelTooBig sampleLoaded sampleRegistry rfl

/-- C5.  In safe mode, when no registry exists, `mdn_Logger_addOutputStream` returns
`MDN_STATUS_ERROR_LIBRARY_NOT_INITIALIZED` for every configuration and every allocator
outcome and leaves the whole state as it was, so that a following `mdn_Logger_init` yields
a registry with zero destinations.  No registry exists before the first
`mdn_Logger_init`, and none exists after any `mdn_Logger_deinit`. -/
theorem C5_addOutputStream_not_initialized (reallocOk : Bool)
    (streamConfig : mdn_Logger_StreamConfig_t) (w : World)
    (hg : w.g_Logger_internalState = none) :
    mdn_Logger_addOutputStream true reallocOk streamConfig w
        = some (MDN_STATUS_ERROR_LIBRARY_NOT_INITIALIZED, w)
      ∧ (mdn_Logger_init true true w).1 = MDN_STATUS_SUCCESS
      ∧ (mdn_Logger_init true true w).2.g_Logger_internalState
          = some { streamsArr := [], streamsArrLen := 0 }
      ∧ (mdn_Logger_init true true w).2.streams = w.streams
      ∧ ∀ w0 : World,
          (mdn_Logger_deinit true w0).map (fun r => r.2.g_Logger_internalState)
            = some none := by
  refine ⟨?_, ?_, ?_, ?_, ?_⟩
  · unfold mdn_Logger_addOutputStream
    rw [hg]
    rfl
  · simp [mdn_Logger_init, hg, MDN_MW_malloc]
  · simp [mdn_Logger_init, hg, MDN_MW_malloc]
  · simp [mdn_Logger_init, hg, MDN_MW_malloc]
  · intro w0
    unfold mdn_Logger_deinit
    cases h0 : w0.g_Logger_internalState with
    | none => simp [h0]
    | some st0 => simp

/-- C5, at a concrete input: registering before the library has been started. -/
theorem C5_addOutputStream_not_initialized_witness :
    mdn_Logger_addOutputStream true true fileAtWarning sampleWorld
        = some (MDN_STATUS_ERROR_LIBRARY_NOT_INITIALIZED, sampleWorld)
      ∧ (mdn_Logger_init true true sampleWorld).1 = MDN_STATUS_SUCCESS
      ∧ (mdn_Logger_init true true sampleWorld).2.g_Logger_internalState
          = some { streamsArr := [], streamsArrLen := 0 }
      ∧ (mdn_Logger_init true true sampleWorld).2.streams = sampleWorld.streams
      ∧ ∀ w0 : World,
          (mdn_Logger_deinit true w0).map (fun r => r.2.g_Logger_internalState)
            = some none :=
  C5_addOutputStream_not_initialized true fileAtWarning sampleWorld rfl

/-- C6.  In safe mode, `mdn_Logger_init` called while a registry exists returns
`MDN_STATUS_ERROR_LIBRARY_ALREADY_INITIALIZED`, whatever the allocator would do, and leaves
the whole state as it was; called while no registry exists, allocation succeeding, it
returns `MDN_STATUS_SUCCESS` and the registry then holds zero destinations. -/
theorem C6_init_safe_mode (w : World) :
    (∀ st, w.g_Logger_internalState = some st → ∀ mallocOk,
        mdn_Logger_init true mallocOk w = (MDN_STATUS_ERROR_LIBRARY_ALREADY_INITIALIZED, w))
      ∧ (w.g_Logger_internalState = none →
          (mdn_Logger_init true true w).1 = MDN_STATUS_SUCCESS
          ∧ (mdn_Logger_init true true w).2.g_Logger_internalState
              = some { streamsArr := [], streamsArrLen := 0 }
          ∧ (mdn_Logger_init true true w).2.streams = w.streams) := by
  refine ⟨?_, ?_⟩
  · intro st hg mallocOk
    simp [mdn_Logger_init, hg]
  · intro hg
    simp [mdn_Logger_init, hg, MDN_MW_malloc]

/-- C6, at concrete inputs: a second start on the loaded registry, and a first start. -/
theorem C6_init_safe_mode_witness :
    mdn_Logger_init true true sampleLoaded
        = (MDN_STATUS_ERROR_LIBRARY_ALREADY_INITIALIZED, sampleLoaded)
      ∧ (mdn_Logger_init true true sampleWorld).1 = MDN_STATUS_SUCCESS
      ∧ (mdn_Logger_init true true sampleWorld).2.g_Logger_internalState
          = some { streamsArr := [], streamsArrLen := 0 }
      ∧ (mdn_Logger_init true true sampleWorld).2.streams = sampleWorld.streams :=
  ⟨(C6_init_safe_mode sampleLoaded).1 sampleRegistry rfl true,
    (C6_init_safe_mode sampleWorld).2 rfl⟩

/-- C7.  In safe mode, `mdn_Logger_deinit` returns
`MDN_STATUS_ERROR_LIBRARY_NOT_INITIALIZED` exactly when no registry exists, and then leaves
the whole state as it was; when a registry exists it returns `MDN_STATUS_SUCCESS` and
leaves no registry, the streams being untouched, so that a second `mdn_Logger_deinit`
right after it returns `MDN_STATUS_ERROR_LIBRARY_NOT_INITIALIZED`. -/
theorem C7_deinit_safe_mode (w : World) :
    ((mdn_Logger_deinit true w).map Prod.fst = some MDN_STATUS_ERROR_LIBRARY_NOT_INITIALIZED
        ↔ w.g_Logger_internalState = none)
      ∧ (w.g_Logger_internalState = none →
          mdn_Logger_deinit true w = some (MDN_STATUS_ERROR_LIBRARY_NOT_INITIALIZED, w))
      ∧ (∀ st, w.g_Logger_internalState = some st →
          ∃ w1, mdn_Logger_deinit true w = some (MDN_STATUS_SUCCESS, w1)
            ∧ w1.g_Logger_internalState = none
            ∧ w1.streams = w.streams
            ∧ mdn_Logger_deinit true w1
                = some (MDN_STATUS_ERROR_LIBRARY_NOT_INITIALIZED, w1)) := by
  refine ⟨?_, ?_, ?_⟩
  · unfold mdn_Logger_deinit
    cases hg : w.g_Logger_internalState with
    | none => simp
    | some st => simp
  · intro hg
    unfold mdn_Logger_deinit
    rw [hg]
    rfl
  · intro st hg
    refine ⟨{ w with g_Logger_internalState := none }, ?_, rfl, rfl, rfl⟩
    unfold mdn_Logger_deinit
    rw [hg]

/-- C7, at concrete inputs: a stop of the loaded registry, and a stop with no registry. -/
theorem C7_deinit_safe_mode_witness :
    mdn_Logger_deinit true sampleWorld
        = some (MDN_STATUS_ERROR_LIBRARY_NOT_INITIALIZED, sampleWorld)
      ∧ ∃ w1, mdn_Logger_deinit true sampleLoaded = some (MDN_STATUS_SUCCESS, w1)
          ∧ w1.g_Logger_internalState = none
          ∧ w1.streams = sampleLoaded.streams
          ∧ mdn_Logger_deinit true w1
              = some (MDN_STATUS_ERROR_LIBRARY_NOT_INITIALIZED, w1) :=
  ⟨(C7_deinit_safe_mode sampleWorld).2.1 rfl,
    (C7_deinit_safe_mode sampleLoaded).2.2 sampleRegistry rfl⟩


/-- C8.  After a successful `mdn_Logger_init`, whatever sequence of
`mdn_Logger_addOutputStream` and `mdn_Logger_log` calls has been made (each with defined
behaviour, so that the sequence runs to its end), a following
`mdn_Logger_deinit` succeeds and a following `mdn_Logger_init` (allocation succeeding)
succeeds; the registry is then the one the first `mdn_Logger_init` produced, with zero
destinations, the streams are what the calls left, and a `mdn_Logger_log` call made then
returns and writes nothing to any stream. -/
theorem C8_deinit_init_round_trip (safeMode mallocOk : Bool) (w0 w1 w2 : World)
    (calls : List Call) (sts : List (Option mdn_Status_t))
    (hinit : mdn_Logger_init safeMode mallocOk w0 = (MDN_STATUS_SUCCESS, w1))
    (hcalls : ∀ c ∈ calls, c.isAddOrLog = true)
    (hrun : run safeMode calls w1 = some (sts, w2)) :
    ∃ w3, mdn_Logger_deinit safeMode w2 = some (MDN_STATUS_SUCCESS, w3)
      ∧ (mdn_Logger_init safeMode true w3).1 = MDN_STATUS_SUCCESS
      ∧ (mdn_Logger_init safeMode true w3).2.g_Logger_internalState
          = w1.g_Logger_internalState
      ∧ (mdn_Logger_init safeMode true w3).2.g_Logger_internalState
          = some { streamsArr := [], streamsArrLen := 0 }
      ∧ (mdn_Logger_init safeMode true w3).2.streams = w2.streams
      ∧ ∀ (host : Host) (loggingLevel : Int) (file : List Char) (line : Int)
          (funcName format : List Char) (varargs : List Arg),
          (mdn_Logger_log host loggingLevel file line funcName format varargs
              (mdn_Logger_init safeMode true w3).2).map
              (fun w4 => (w4.g_Logger_internalState, w4.streams))
            = some (some { streamsArr := [], streamsArrLen := 0 }, w2.streams) := by
  have hg1 : w1.g_Logger_internalState = some ⟨[], 0⟩ := by
    unfold mdn_Logger_init at hinit
    split_ifs at hinit
    · simp at hinit
    · cases mallocOk
      · simp [MDN_MW_malloc] at hinit
      · simp only [MDN_MW_malloc, ↓reduceIte, Prod.mk.injEq, true_and] at hinit
        rw [← hinit]
  have hg2 := run_keeps_registry_present safeMode calls w1 w2 sts hcalls
    (by rw [hg1]; rfl) hrun
  obtain ⟨st2, hst2⟩ := Option.isSome_iff_exists.mp hg2
  have hinit3 : mdn_Logger_init safeMode true { w2 with g_Logger_internalState := none }
      = (MDN_STATUS_SUCCESS, { w2 with g_Logger_internalState := some ⟨[], 0⟩ }) := by
    simp [mdn_Logger_init, MDN_MW_malloc]
  refine ⟨{ w2 with g_Logger_internalState := none }, ?_, ?_, ?_, ?_, ?_, ?_⟩
  · unfold mdn_Logger_deinit
    rw [hst2]
  · rw [hinit3]
  · rw [hinit3, hg1]
  · rw [hinit3]
  · rw [hinit3]
  · intro host loggingLevel file line funcName format varargs
    rw [hinit3]
    rfl

/-- C8, at a concrete input: a start, two registrations and a CRITICAL log call, after
which stream 1 holds one line; then a stop and a new start. -/
theorem C8_deinit_init_round_trip_witness :
    (sampleAfterCalls.streams 1).written
        = "2026-10-31 07:05:09.123 CRITICAL main                 | hello".toList
          ++ [Char.ofNat 10]
      ∧ ∃ w3, mdn_Logger_deinit true sampleAfterCalls = some (MDN_STATUS_SUCCESS, w3)
        ∧ (mdn_Logger_init true true w3).1 = MDN_STATUS_SUCCESS
        ∧ (mdn_Logger_init true true w3).2.g_Logger_internalState
            = sampleStarted.g_Logger_internalState
        ∧ (mdn_Logger_init true true w3).2.g_Logger_internalState
            = some { streamsArr := [], streamsArrLen := 0 }
        ∧ (mdn_Logger_init true true w3).2.streams = sampleAfterCalls.streams
        ∧ ∀ (host : Host) (loggingLevel : Int) (file : List Char) (line : Int)
            (funcName format : List Char) (varargs : List Arg),
            (mdn_Logger_log host loggingLevel file line funcName format varargs
                (mdn_Logger_init true true w3).2).map
                (fun w4 => (w4.g_Logger_internalState, w4.streams))
              = some (some { streamsArr := [], streamsArrLen := 0 },
                  sampleAfterCalls.streams) :=
  ⟨by decide,
    C8_deinit_init_round_trip true true sampleWorld sampleStarted sampleAfterCalls sampleCalls
      [some MDN_STATUS_SUCCESS, some MDN_STATUS_SUCCESS, none] rfl
      (by
        intro c hc
        simp only [sampleCalls, List.mem_cons, List.mem_singleton, List.mem_nil_iff,
          or_false] at hc
        rcases hc with rfl | rfl | rfl <;> rfl)
      rfl⟩

/-- C9.  When the allocation inside `mdn_Logger_init` fails (which in safe mode presupposes
that no registry exists, the check coming first) the call returns
`MDN_STATUS_ERROR_MEM_ALLOC` and leaves no registry, the streams being untouched; a later
`mdn_Logger_init` is then never answered `MDN_STATUS_ERROR_LIBRARY_ALREADY_INITIALIZED`, and
succeeds when its allocation does. -/
theorem C9_init_allocation_failure (safeMode : Bool) (w : World)
    (hreach : safeMode = true → w.g_Logger_internalState = none) :
    ∃ w1, mdn_Logger_init safeMode false w = (MDN_STATUS_ERROR_MEM_ALLOC, w1)
      ∧ w1.g_Logger_internalState = none
      ∧ w1.streams = w.streams
      ∧ (∀ mallocOk, (mdn_Logger_init safeMode mallocOk w1).1
          ≠ MDN_STATUS_ERROR_LIBRARY_ALREADY_INITIALIZED)
      ∧ (mdn_Logger_init safeMode true w1).1 = MDN_STATUS_SUCCESS := by
  refine ⟨{ w with g_Logger_internalState := none }, ?_, rfl, rfl, ?_, ?_⟩
  · cases safeMode with
    | false => simp [mdn_Logger_init, MDN_MW_malloc]
    | true => simp [mdn_Logger_init, MDN_MW_malloc, hreach rfl]
  · intro mallocOk
    cases mallocOk <;> simp [mdn_Logger_init, MDN_MW_malloc]
  · simp [mdn_Logger_init, MDN_MW_malloc]


/-- C9, at a concrete input: a first start whose allocation fails. -/
theorem C9_init_allocation_failure_witness :
    ∃ w1, mdn_Logger_init true false sampleWorld = (MDN_STATUS_ERROR_MEM_ALLOC, w1)
      ∧ w1.g_Logger_internalState = none
      ∧ w1.streams = sampleWorld.streams
      ∧ (∀ mallocOk, (mdn_Logger_init true mallocOk w1).1
          ≠ MDN_STATUS_ERROR_LIBRARY_ALREADY_INITIALIZED)
      ∧ (mdn_Logger_init true true w1).1 = MDN_STATUS_SUCCESS :=
  C9_init_allocation_failure true sampleWorld (fun _ => rfl)

/-- C10.  On a registry of valid entries, whichever streams are in a failing condition,
`mdn_Logger_log` runs its traversal to the end and returns (it has no status to report):
a failing stream is left as it was, and every destination whose threshold admits the
severity and whose own stream accepts writes finds its complete line in its stream,
after the lines of the earlier destinations that name the same stream and before those of
the later ones. -/
theorem C10_failed_write_does_not_stop_dispatch (host : Host) (loggingLevel : Int)
    (file : List Char) (line : Int) (funcName format : List Char) (varargs : List Arg)
    (w : World) (st : Logger_InternalState_t)
    (hg : w.g_Logger_internalState = some st) (hok : RegistryOk st)
    (hl : IS_VALID_LOGGING_LEVEL loggingLevel = true) (hclock : ClockFits host) :
    ∃ w1, mdn_Logger_log host loggingLevel file line funcName format varargs w = some w1
      ∧ w1.g_Logger_internalState = w.g_Logger_internalState
      ∧ (∀ t, (w.streams t).error = true → w1.streams t = w.streams t)
      ∧ ∀ j cfg, st.streamsArr[j]? = some cfg → cfg.loggingLevel ≤ loggingLevel →
          (w.streams cfg.stream).error = false →
          ∃ record,
            lineText host j cfg.loggingFormat loggingLevel funcName
                (host.vformat format varargs) = some (record ++ [Char.ofNat 10])
            ∧ (w1.streams cfg.stream).written
                = (w.streams cfg.stream).written
                  ++ owed host loggingLevel funcName (host.vformat format varargs) cfg.stream 0
                      (st.streamsArr.take j)
                  ++ (record ++ [Char.ofNat 10])
                  ++ owed host loggingLevel funcName (host.vformat format varargs) cfg.stream
                      (j + 1) (st.streamsArr.drop (j + 1)) := by
  obtain ⟨w1, hlog, hreg, hstreams⟩ :=
    log_eq host loggingLevel file line funcName format varargs w hg hok hl hclock
  refine ⟨w1, hlog, hreg, ?_, ?_⟩
  · intro t ht
    rw [hstreams, if_neg (by simp [ht])]
  · intro j cfg hj hge hwr
    have hcfg : ValidConfig cfg := hok.2 cfg (List.getElem?_mem hj)
    obtain ⟨record, hrec⟩ := lineText_some host hclock j hcfg.2.2 hl funcName
      (host.vformat format varargs)
    refine ⟨record, hrec, ?_⟩
    have hsplit := owed_split host loggingLevel funcName (host.vformat format varargs) cfg
      (record ++ [Char.ofNat 10]) st.streamsArr 0 j hj (not_lt.mpr hge)
      (by rw [Nat.zero_add]; exact hrec)
    rw [hstreams, if_pos hwr, hsplit, Nat.zero_add]
    simp only [FILE.receive, List.append_assoc]

/-- C10, at a concrete input: the two sample destinations while stream 1, the target of
the first, fails.  The second still receives its line, and the first receives nothing. -/
theorem C10_failed_write_does_not_stop_dispatch_witness :
    (∃ w1, mdn_Logger_log sampleHost MDN_LOGGER_LOGGING_LEVEL_CRITICAL "main.c".toList 7
          "main".toList "hello".toList [] sampleLoadedOneFailing = some w1
        ∧ w1.g_Logger_internalState = sampleLoadedOneFailing.g_Logger_internalState
        ∧ (∀ t, (sampleLoadedOneFailing.streams t).error = true →
            w1.streams t = sampleLoadedOneFailing.streams t)
        ∧ ∀ j cfg, sampleRegistry.streamsArr[j]? = some cfg →
            cfg.loggingLevel ≤ MDN_LOGGER_LOGGING_LEVEL_CRITICAL →
            (sampleLoadedOneFailing.streams cfg.stream).error = false →
            ∃ record,
              lineText sampleHost j cfg.loggingFormat MDN_LOGGER_LOGGING_LEVEL_CRITICAL
                  "main".toList (sampleHost.vformat "hello".toList [])
                = some (record ++ [Char.ofNat 10])
              ∧ (w1.streams cfg.stream).written
                  = (sampleLoadedOneFailing.streams cfg.stream).written
                    ++ owed sampleHost MDN_LOGGER_LOGGING_LEVEL_CRITICAL "main".toList
                        (sampleHost.vformat "hello".toList []) cfg.stream 0
                        (sampleRegistry.streamsArr.take j)
                    ++ (record ++ [Char.ofNat 10])
                    ++ owed sampleHost MDN_LOGGER_LOGGING_LEVEL_CRITICAL "main".toList
                        (sampleHost.vformat "hello".toList []) cfg.stream (j + 1)
                        (sampleRegistry.streamsArr.drop (j + 1)))
      ∧ (mdn_Logger_log sampleHost MDN_LOGGER_LOGGING_LEVEL_CRITICAL "main.c".toList 7
          "main".toList "hello".toList [] sampleLoadedOneFailing).map
            (fun w1 => ((w1.streams 1).written, (w1.streams 2).written))
          = some ([], COLOR "35".toList ++ "07:05:09.123 main                 | hello".toList
              ++ COLOR "0".toList ++ [Char.ofNat 10]) :=
  ⟨C10_failed_write_does_not_stop_dispatch sampleHost MDN_LOGGER_LOGGING_LEVEL_CRITICAL
      "main.c".toList 7 "main".toList "hello".toList [] sampleLoadedOneFailing sampleRegistry
      rfl (by decide) rfl sampleHost_clockFits,
    by decide⟩

/-! ## Decimal conversions -/

theorem toDigitsCore_step (fuel n : Nat) (ds : List Char) :
    Nat.toDigitsCore 10 (fuel + 1) n ds
      = if n / 10 = 0 then Nat.digitChar (n % 10) :: ds
        else Nat.toDigitsCore 10 fuel (n / 10) (Nat.digitChar (n % 10) :: ds) := by
  simp [Nat.toDigitsCore]

theorem toDigitsCore_eq_append :
    ∀ (n fuel : Nat) (ds : List Char), n < fuel →
      Nat.toDigitsCore 10 fuel n ds = Nat.toDigitsCore 10 (n + 1) n [] ++ ds := by
  intro n
  induction n using Nat.strong_induction_on with
  | _ n ih =>
    intro fuel ds hfuel
    obtain ⟨f, rfl⟩ : ∃ f, fuel = f + 1 := ⟨fuel - 1, by omega⟩
    rw [toDigitsCore_step, toDigitsCore_step]
    by_cases h0 : n / 10 = 0
    · simp [h0]
    · rw [if_neg h0, if_neg h0]
      have hlt : n / 10 < n := Nat.div_lt_self (by omega) (by decide)
      rw [ih (n / 10) hlt f _ (by omega), ih (n / 10) hlt n [Nat.digitChar (n % 10)] hlt]
      simp

theorem toDigits_lt_ten {n : Nat} (h : n < 10) : Nat.toDigits 10 n = [Nat.digitChar n] := by
  unfold Nat.toDigits
  rw [toDigitsCore_step, if_pos (Nat.div_eq_of_lt h), Nat.mod_eq_of_lt h]

theorem toDigits_ge_ten {n : Nat} (h : 10 ≤ n) :
    Nat.toDigits 10 n = Nat.toDigits 10 (n / 10) ++ [Nat.digitChar (n % 10)] := by
  unfold Nat.toDigits
  have h0 : n / 10 ≠ 0 := by
    intro h1
    have := (Nat.div_eq_zero_iff (by decide : 0 < 10)).mp h1
    omega
  rw [toDigitsCore_step, if_neg h0]
  exact toDigitsCore_eq_append (n / 10) n _ (Nat.div_lt_self (by omega) (by decide))

theorem fixedDec_zero (width : Nat) :
    fixedDec width 0 = List.replicate width '0' := by
  induction width with
  | zero => rfl
  | succ w ih =>
    show fixedDec w (0 / 10) ++ [Nat.digitChar (0 % 10)] = _
    rw [Nat.zero_div, ih, List.replicate_succ']
    rfl

/-- The conversion `%0<width>d` of a number that has at most `width` digits is its numeral
of exactly `width` digits. -/
theorem zeroPad_eq_fixedDec :
    ∀ (width n : Nat), n < 10 ^ (width + 1) → zeroPad (width + 1) n = fixedDec (width + 1) n := by
  intro width
  induction width with
  | zero =>
    intro n hn
    have hn10 : n < 10 := by simpa using hn
    simp [zeroPad, fixedDec, toDigits_lt_ten hn10, Nat.mod_eq_of_lt hn10]
  | succ w ih =>
    intro n hn
    by_cases hn10 : n < 10
    · have hdiv : n / 10 = 0 := Nat.div_eq_of_lt hn10
      show _ = fixedDec (w + 1) (n / 10) ++ [Nat.digitChar (n % 10)]
      rw [hdiv, fixedDec_zero, Nat.mod_eq_of_lt hn10]
      simp [zeroPad, toDigits_lt_ten hn10]
    · have hge : 10 ≤ n := by omega
      have hdiv : n / 10 < 10 ^ (w + 1) := by
        rw [Nat.div_lt_iff_lt_mul (by decide)]
        calc n < 10 ^ (w + 1 + 1) := hn
          _ = 10 ^ (w + 1) * 10 := by rw [Nat.pow_succ]
      show _ = fixedDec (w + 1) (n / 10) ++ [Nat.digitChar (n % 10)]
      rw [← ih (n / 10) hdiv]
      unfold zeroPad
      rw [toDigits_ge_ten hge]
      simp [List.append_assoc]

theorem toDigits_four {n : Nat} (hlo : 1000 ≤ n) (hhi : n ≤ 9999) :
    Nat.toDigits 10 n = fixedDec 4 n := by
  have h1 : 10 ≤ n := by omega
  have h2 : 10 ≤ n / 10 := by omega
  have h3 : 10 ≤ n / 10 / 10 := by omega
  have h4 : n / 10 / 10 / 10 < 10 := by omega
  rw [toDigits_ge_ten h1, toDigits_ge_ten h2, toDigits_ge_ten h3, toDigits_lt_ten h4]
  simp [fixedDec, Nat.mod_eq_of_lt h4]

theorem fixedDec_length (width n : Nat) : (fixedDec width n).length = width := by
  induction width generalizing n with
  | zero => rfl
  | succ w ih => simp [fixedDec, ih]

theorem layoutDate_length (t : tm) : (layoutDate t).length = 10 := by
  simp [layoutDate, fixedDec_length]

theorem strftime_eq {t : tm} (h : CalendarTime t) :
    strftime t = some (layoutDate t ++ Char.ofNat 32 :: fixedDec 2 t.tm_hour
      ++ ':' :: fixedDec 2 t.tm_min ++ ':' :: fixedDec 2 t.tm_sec) := by
  obtain ⟨hy, hmo, hd, hh, hmi, hs⟩ := h
  unfold strftime
  simp only []
  rw [toDigits_four (by omega) hy, zeroPad_eq_fixedDec 1 _ (by norm_num; omega),
    zeroPad_eq_fixedDec 1 t.tm_mday (by norm_num; omega),
    zeroPad_eq_fixedDec 1 t.tm_hour (by norm_num; omega),
    zeroPad_eq_fixedDec 1 t.tm_min (by norm_num; omega),
    zeroPad_eq_fixedDec 1 t.tm_sec (by norm_num; omega)]
  rw [if_pos (by simp [fixedDec_length])]
  simp [layoutDate, List.append_assoc]

/-- With a calendar clock, `mdn_Logger_printTimestamp` sends the date (when asked for), the
time of day with milliseconds, and one space. -/
theorem timestampText_eq (host : Host) (hcal : CalendarClock host) (tick : Nat)
    (includeDate : Bool) :
    timestampText host tick includeDate
      = some ((if includeDate then
            layoutDate (host.localtime (host.reading tick).tv_sec) ++ [Char.ofNat 32]
          else [])
        ++ layoutTime (host.localtime (host.reading tick).tv_sec)
            (host.reading tick).tv_usec
        ++ [Char.ofNat 32]) := by
  obtain ⟨hct, husec⟩ := hcal tick
  unfold timestampText
  rw [strftime_eq hct]
  have hms : (host.reading tick).tv_usec / 1000 < 10 ^ (2 + 1) := by
    norm_num
    omega
  rw [zeroPad_eq_fixedDec 2 _ hms]
  cases includeDate with
  | true => simp [layoutTime, List.append_assoc]
  | false =>
    have hdrop : ∀ rest : List Char,
        (layoutDate (host.localtime (host.reading tick).tv_sec)
          ++ Char.ofNat 32 :: rest).drop 11 = rest := by
      intro rest
      have h11 : 11 = (layoutDate (host.localtime (host.reading tick).tv_sec)
          ++ [Char.ofNat 32]).length := by simp [layoutDate_length]
      have happ : layoutDate (host.localtime (host.reading tick).tv_sec)
          ++ Char.ofNat 32 :: rest
          = (layoutDate (host.localtime (host.reading tick).tv_sec) ++ [Char.ofNat 32])
            ++ rest := by simp
      rw [happ, h11, List.drop_left]
    simp only [Option.map_some', Bool.false_eq_true, ↓reduceIte, List.nil_append,
      List.append_assoc, List.cons_append]
    rw [hdrop]
    simp [layoutTime, List.append_assoc]

theorem calendarClock_clockFits {host : Host} (hcal : CalendarClock host) :
    ClockFits host := by
  intro tick
  rw [strftime_eq (hcal tick).1]
  rfl

/-! ## Line layouts -/

theorem strMap_eq_severityNames {l : Int} (h : IS_VALID_LOGGING_LEVEL l = true) :
    g_mdn_Logger_logLevelToStrMap l = severityNames[l.toNat]? := by
  rcases valid_level_cases h with h | h | h | h | h <;> subst h <;> rfl

theorem fixedDec_mem_digits {width n : Nat} {c : Char} (h : c ∈ fixedDec width n) :
    c ∈ "0123456789".toList := by
  induction width generalizing n with
  | zero => simp [fixedDec] at h
  | succ w ih =>
    simp only [fixedDec, List.mem_append, List.mem_singleton] at h
    rcases h with h | h
    · exact ih h
    · subst h
      have hlt : n % 10 < 10 := Nat.mod_lt _ (by decide)
      generalize n % 10 = k at hlt
      interval_cases k <;> decide

theorem sampleHost_calendarClock : CalendarClock sampleHost := by
  intro tick
  show CalendarTime ⟨126, 9, 31, 7, 5, 9⟩ ∧ 123456 < 1000000
  decide

/-- With a calendar clock and a valid severity, the text of the file renderer is the date,
the time, the severity name in its field, the function name in its field, the separator,
the message and a newline. -/
theorem fileText_eq (host : Host) (hcal : CalendarClock host) (tick : Nat)
    {loggingLevel : Int} (hl : IS_VALID_LOGGING_LEVEL loggingLevel = true)
    (funcName message : List Char) :
    ∃ name, severityNames[loggingLevel.toNat]? = some name
      ∧ fileText host tick loggingLevel funcName message
        = some (layoutDate (host.localtime (host.reading tick).tv_sec) ++ [Char.ofNat 32]
            ++ layoutTime (host.localtime (host.reading tick).tv_sec)
                (host.reading tick).tv_usec
            ++ [Char.ofNat 32] ++ leftJustify 8 name ++ [Char.ofNat 32]
            ++ leftJustify 20 funcName ++ [Char.ofNat 32] ++ ['|', Char.ofNat 32]
            ++ message ++ [Char.ofNat 10]) := by
  obtain ⟨name, hname⟩ := strMap_some hl
  refine ⟨name, by rw [← strMap_eq_severityNames hl, hname], ?_⟩
  unfold fileText
  rw [timestampText_eq host hcal tick true, hname]
  simp [List.append_assoc]

/-- With a calendar clock and a valid severity, the text of the screen renderer is the
colour of the severity, the time, the function name in its field, the separator, the
message, the reset colour and a newline. -/
theorem screenText_eq (host : Host) (hcal : CalendarClock host) (tick : Nat)
    {loggingLevel : Int} (hl : IS_VALID_LOGGING_LEVEL loggingLevel = true)
    (funcName message : List Char) :
    ∃ color, g_mdn_Logger_loggingLevelToColorMap loggingLevel = some color
      ∧ screenText host tick loggingLevel funcName message
        = some (g_Logger_colorToTerminalColorMap color
            ++ layoutTime (host.localtime (host.reading tick).tv_sec)
                (host.reading tick).tv_usec
            ++ [Char.ofNat 32] ++ leftJustify 20 funcName ++ [Char.ofNat 32]
            ++ ['|', Char.ofNat 32] ++ message
            ++ g_Logger_colorToTerminalColorMap LOGGING_COLOR_RESET ++ [Char.ofNat 10]) := by
  obtain ⟨color, hcolor⟩ := colorMap_some hl
  refine ⟨color, hcolor, ?_⟩
  unfold screenText
  rw [timestampText_eq host hcal tick false, hcolor]
  simp [List.append_assoc]

theorem leftJustify_length (width : Nat) (text : List Char) :
    (leftJustify width text).length = max width text.length := by
  simp only [leftJustify, List.length_append, List.length_replicate]
  omega

theorem mem_leftJustify {width : Nat} {text : List Char} {c : Char}
    (h : c ∈ leftJustify width text) : c ∈ text ∨ c = Char.ofNat 32 := by
  simp only [leftJustify, List.mem_append, List.mem_replicate] at h
  rcases h with h | h
  · exact Or.inl h
  · exact Or.inr h.2

theorem mem_layoutDate {t : tm} {c : Char} (h : c ∈ layoutDate t) :
    c ∈ "0123456789-".toList := by
  simp only [layoutDate, List.mem_append, List.mem_cons] at h
  rcases h with (h | h | h) | h | h
  · have := fixedDec_mem_digits h
    simp only [String.toList, List.mem_cons] at this ⊢
    tauto
  · subst h; decide
  · have := fixedDec_mem_digits h
    simp only [String.toList, List.mem_cons] at this ⊢
    tauto
  · subst h; decide
  · have := fixedDec_mem_digits h
    simp only [String.toList, List.mem_cons] at this ⊢
    tauto

theorem mem_layoutTime {t : tm} {usec : Nat} {c : Char} (h : c ∈ layoutTime t usec) :
    c ∈ "0123456789:.".toList := by
  simp only [layoutTime, List.mem_append, List.mem_cons] at h
  rcases h with ((h | h | h) | h | h) | h | h
  · have := fixedDec_mem_digits h
    simp only [String.toList, List.mem_cons] at this ⊢
    tauto
  · subst h; decide
  · have := fixedDec_mem_digits h
    simp only [String.toList, List.mem_cons] at this ⊢
    tauto
  · subst h; decide
  · have := fixedDec_mem_digits h
    simp only [String.toList, List.mem_cons] at this ⊢
    tauto
  · subst h; decide
  · have := fixedDec_mem_digits h
    simp only [String.toList, List.mem_cons] at this ⊢
    tauto

theorem severityNames_upper {k : Nat} {name : List Char} {c : Char}
    (hk : severityNames[k]? = some name) (hc : c ∈ name) :
    c ∈ "ABCDEFGHIJKLMNOPQRSTUVWXYZ".toList := by
  rcases k with _ | _ | _ | _ | _ | k
  · simp only [severityNames, List.getElem?_cons_zero, Option.some.injEq] at hk
    subst hk
    exact (by decide : "DEBUG".toList ⊆ "ABCDEFGHIJKLMNOPQRSTUVWXYZ".toList) hc
  · simp only [severityNames, List.getElem?_cons_succ, List.getElem?_cons_zero,
      Option.some.injEq] at hk
    subst hk
    exact (by decide : "INFO".toList ⊆ "ABCDEFGHIJKLMNOPQRSTUVWXYZ".toList) hc
  · simp only [severityNames, List.getElem?_cons_succ, List.getElem?_cons_zero,
      Option.some.injEq] at hk
    subst hk
    exact (by decide : "WARNING".toList ⊆ "ABCDEFGHIJKLMNOPQRSTUVWXYZ".toList) hc
  · simp only [severityNames, List.getElem?_cons_succ, List.getElem?_cons_zero,
      Option.some.injEq] at hk
    subst hk
    exact (by decide : "ERROR".toList ⊆ "ABCDEFGHIJKLMNOPQRSTUVWXYZ".toList) hc
  · simp only [severityNames, List.getElem?_cons_succ, List.getElem?_cons_zero,
      Option.some.injEq] at hk
    subst hk
    exact (by decide : "CRITICAL".toList ⊆ "ABCDEFGHIJKLMNOPQRSTUVWXYZ".toList) hc
  · simp [severityNames] at hk

theorem severityNames_length_le {k : Nat} {name : List Char}
    (hk : severityNames[k]? = some name) : name.length ≤ 8 := by
  rcases k with _ | _ | _ | _ | _ | k <;>
    simp only [severityNames, List.getElem?_cons_succ, List.getElem?_cons_zero,
      Option.some.injEq, List.getElem?_nil] at hk
  all_goals first
    | (subst hk; decide)
    | exact absurd hk (by simp)

/-- C11.  With a calendar clock, for every valid severity, function name and message, one
call of `mdn_Logger_logToFile` on a destination with a stream sends it exactly: the date
`YYYY-MM-DD`, a space, the time `HH:MM:SS.mmm`, a space, the name the fixed table gives
the severity, padded with spaces to 8 characters, a space, the function name padded with
spaces to 20 characters, a space, the separator `| `, the expanded message and a
newline.  No escape character is sent unless the function name or the message holds one. -/
theorem C11_file_renderer_layout (host : Host) (st : Logger_InternalState_t)
    (a : mdn_Logger_logToStreamArguments_t) (fs : Nat → FILE)
    (c : mdn_Logger_StreamConfig_t) (hcal : CalendarClock host)
    (hi : st.streamsArr[a.streamIndex]? = some c) (hs : c.stream ≠ 0)
    (hl : IS_VALID_LOGGING_LEVEL a.loggingLevel = true) :
    ∃ name text, severityNames[a.loggingLevel.toNat]? = some name
      ∧ (leftJustify 8 name).length = 8
      ∧ text = layoutDate (host.localtime (host.reading a.streamIndex).tv_sec)
          ++ [Char.ofNat 32]
          ++ layoutTime (host.localtime (host.reading a.streamIndex).tv_sec)
              (host.reading a.streamIndex).tv_usec
          ++ [Char.ofNat 32] ++ leftJustify 8 name ++ [Char.ofNat 32]
          ++ leftJustify 20 a.funcName ++ [Char.ofNat 32] ++ ['|', Char.ofNat 32]
          ++ host.vformat a.format a.args ++ [Char.ofNat 10]
      ∧ mdn_Logger_logToFile host st a fs = some (put c.stream text fs)
      ∧ (Char.ofNat 27 ∉ a.funcName → Char.ofNat 27 ∉ host.vformat a.format a.args →
          Char.ofNat 27 ∉ text) := by
  obtain ⟨name, hname, htext⟩ := fileText_eq host hcal a.streamIndex hl a.funcName
    (host.vformat a.format a.args)
  refine ⟨name, _, hname, ?_, rfl, ?_, ?_⟩
  · rw [leftJustify_length]
    have := severityNames_length_le hname
    omega
  · rw [logToFile_eq host st a fs hi hs, htext]
    rfl
  · intro hf hm hmem
    simp only [List.mem_append, List.mem_cons, List.mem_singleton, List.not_mem_nil,
      or_false] at hmem
    rcases hmem with (((((((((h | h) | h) | h) | h) | h) | h) | h) | h | h) | h) | h
    · exact absurd (mem_layoutDate h) (by decide)
    · exact absurd h (by decide)
    · exact absurd (mem_layoutTime h) (by decide)
    · exact absurd h (by decide)
    · rcases mem_leftJustify h with h1 | h1
      · exact absurd (severityNames_upper hname h1) (by decide)
      · exact absurd h1 (by decide)
    · exact absurd h (by decide)
    · rcases mem_leftJustify h with h1 | h1
      · exact hf h1
      · exact absurd h1 (by decide)
    · exact absurd h (by decide)
    · exact absurd h (by decide)
    · exact absurd h (by decide)
    · exact hm h
    · exact absurd h (by decide)

/-- C11, at a concrete input: the CRITICAL sample call rendered for the file destination on
stream 1. -/
theorem C11_file_renderer_layout_witness :
    (∃ name text, severityNames[sampleArguments.loggingLevel.toNat]? = some name
      ∧ (leftJustify 8 name).length = 8
      ∧ text = layoutDate (sampleHost.localtime (sampleHost.reading 0).tv_sec)
          ++ [Char.ofNat 32]
          ++ layoutTime (sampleHost.localtime (sampleHost.reading 0).tv_sec)
              (sampleHost.reading 0).tv_usec
          ++ [Char.ofNat 32] ++ leftJustify 8 name ++ [Char.ofNat 32]
          ++ leftJustify 20 sampleArguments.funcName ++ [Char.ofNat 32]
          ++ ['|', Char.ofNat 32]
          ++ sampleHost.vformat sampleArguments.format sampleArguments.args
          ++ [Char.ofNat 10]
      ∧ mdn_Logger_logToFile sampleHost sampleRegistry sampleArguments sampleStreams
          = some (put fileAtWarning.stream text sampleStreams)
      ∧ (Char.ofNat 27 ∉ sampleArguments.funcName →
          Char.ofNat 27 ∉ sampleHost.vformat sampleArguments.format sampleArguments.args →
          Char.ofNat 27 ∉ text))
    ∧ (mdn_Logger_logToFile sampleHost sampleRegistry sampleArguments sampleStreams).map
          (fun fs => (fs 1).written)
        = some ("2026-10-31 07:05:09.123 CRITICAL main                 | hello".toList
            ++ [Char.ofNat 10]) :=
  ⟨C11_file_renderer_layout sampleHost sampleRegistry sampleArguments sampleStreams
      fileAtWarning sampleHost_calendarClock rfl (by decide) rfl,
    by decide⟩

theorem mem_terminalColor {color : mdn_Logger_loggingColor_t} {c : Char}
    (h : c ∈ g_Logger_colorToTerminalColorMap color) :
    c ∈ Char.ofNat 27 :: "[0123456789m".toList := by
  cases color
  · exact (by decide : g_Logger_colorToTerminalColorMap LOGGING_COLOR_GRAY
      ⊆ Char.ofNat 27 :: "[0123456789m".toList) h
  · exact (by decide : g_Logger_colorToTerminalColorMap LOGGING_COLOR_RESET
      ⊆ Char.ofNat 27 :: "[0123456789m".toList) h
  · exact (by decide : g_Logger_colorToTerminalColorMap LOGGING_COLOR_YELLOW
      ⊆ Char.ofNat 27 :: "[0123456789m".toList) h
  · exact (by decide : g_Logger_colorToTerminalColorMap LOGGING_COLOR_RED
      ⊆ Char.ofNat 27 :: "[0123456789m".toList) h
  · exact (by decide : g_Logger_colorToTerminalColorMap LOGGING_COLOR_MAGENTA
      ⊆ Char.ofNat 27 :: "[0123456789m".toList) h

theorem severityNames_not_infix {text : List Char}
    (hno : ∀ ch ∈ text, ch ∉ "ABCDEFGHIJKLMNOPQRSTUVWXYZ".toList) :
    ∀ name ∈ severityNames, ¬ name <:+: text := by
  intro name hname hinf
  simp only [severityNames, List.mem_cons, List.mem_singleton, List.not_mem_nil,
    or_false] at hname
  rcases hname with h | h | h | h | h <;> subst h
  · exact hno 'D' (hinf.subset (by decide)) (by decide)
  · exact hno 'I' (hinf.subset (by decide)) (by decide)
  · exact hno 'W' (hinf.subset (by decide)) (by decide)
  · exact hno 'E' (hinf.subset (by decide)) (by decide)
  · exact hno 'C' (hinf.subset (by decide)) (by decide)

/-- C12.  With a calendar clock, for every valid severity, function name and message, one
call of `mdn_Logger_logToScreen` on a destination with a stream sends it exactly: the
colour escape of the severity, the time `HH:MM:SS.mmm` with no date before it, a space, the
function name padded with spaces to 20 characters, a space, the separator `| `, the
expanded message, the reset escape and a newline.  None of the five severity names occurs
in the line unless the function name or the message brings upper-case letters. -/
theorem C12_screen_renderer_layout (host : Host) (st : Logger_InternalState_t)
    (a : mdn_Logger_logToStreamArguments_t) (fs : Nat → FILE)
    (c : mdn_Logger_StreamConfig_t) (hcal : CalendarClock host)
    (hi : st.streamsArr[a.streamIndex]? = some c) (hs : c.stream ≠ 0)
    (hl : IS_VALID_LOGGING_LEVEL a.loggingLevel = true) :
    ∃ color text, g_mdn_Logger_loggingLevelToColorMap a.loggingLevel = some color
      ∧ text = g_Logger_colorToTerminalColorMap color
          ++ layoutTime (host.localtime (host.reading a.streamIndex).tv_sec)
              (host.reading a.streamIndex).tv_usec
          ++ [Char.ofNat 32] ++ leftJustify 20 a.funcName ++ [Char.ofNat 32]
          ++ ['|', Char.ofNat 32] ++ host.vformat a.format a.args
          ++ g_Logger_colorToTerminalColorMap LOGGING_COLOR_RESET ++ [Char.ofNat 10]
      ∧ mdn_Logger_logToScreen host st a fs = some (put c.stream text fs)
      ∧ ((∀ ch ∈ a.funcName ++ host.vformat a.format a.args,
            ch ∉ "ABCDEFGHIJKLMNOPQRSTUVWXYZ".toList) →
          ∀ name ∈ severityNames, ¬ name <:+: text) := by
  obtain ⟨color, hcolor, htext⟩ := screenText_eq host hcal a.streamIndex hl a.funcName
    (host.vformat a.format a.args)
  refine ⟨color, _, hcolor, rfl, ?_, ?_⟩
  · rw [logToScreen_eq host st a fs hi hs, htext]
    rfl
  · intro hfm
    apply severityNames_not_infix
    intro ch hmem hup
    simp only [List.mem_append, List.mem_cons, List.mem_singleton, List.not_mem_nil,
      or_false] at hmem hfm
    rcases hmem with (((((((h | h) | h) | h) | h) | h | h) | h) | h) | h
    · exact (by decide : ∀ x ∈ Char.ofNat 27 :: "[0123456789m".toList,
        x ∉ "ABCDEFGHIJKLMNOPQRSTUVWXYZ".toList) ch (mem_terminalColor h) hup
    · exact (by decide : ∀ x ∈ "0123456789:.".toList,
        x ∉ "ABCDEFGHIJKLMNOPQRSTUVWXYZ".toList) ch (mem_layoutTime h) hup
    · subst h; revert hup; decide
    · rcases mem_leftJustify h with h1 | h1
      · exact hfm ch (Or.inl h1) hup
      · subst h1; revert hup; decide
    · subst h; revert hup; decide
    · subst h; revert hup; decide
    · subst h; revert hup; decide
    · exact hfm ch (Or.inr h) hup
    · exact (by decide : ∀ x ∈ Char.ofNat 27 :: "[0123456789m".toList,
        x ∉ "ABCDEFGHIJKLMNOPQRSTUVWXYZ".toList) ch (mem_terminalColor h) hup
    · subst h; revert hup; decide

/-- C12, at a concrete input: the CRITICAL sample call rendered for the screen destination on
stream 2. -/
theorem C12_screen_renderer_layout_witness :
    (∃ color text,
        g_mdn_Logger_loggingLevelToColorMap sampleScreenArguments.loggingLevel = some color
      ∧ text = g_Logger_colorToTerminalColorMap color
          ++ layoutTime (sampleHost.localtime (sampleHost.reading 1).tv_sec)
              (sampleHost.reading 1).tv_usec
          ++ [Char.ofNat 32] ++ leftJustify 20 sampleScreenArguments.funcName
          ++ [Char.ofNat 32] ++ ['|', Char.ofNat 32]
          ++ sampleHost.vformat sampleScreenArguments.format sampleScreenArguments.args
          ++ g_Logger_colorToTerminalColorMap LOGGING_COLOR_RESET ++ [Char.ofNat 10]
      ∧ mdn_Logger_logToScreen sampleHost sampleRegistry sampleScreenArguments sampleStreams
          = some (put screenAtDebug.stream text sampleStreams)
      ∧ ((∀ ch ∈ sampleScreenArguments.funcName
              ++ sampleHost.vformat sampleScreenArguments.format sampleScreenArguments.args,
            ch ∉ "ABCDEFGHIJKLMNOPQRSTUVWXYZ".toList) →
          ∀ name ∈ severityNames, ¬ name <:+: text))
    ∧ (mdn_Logger_logToScreen sampleHost sampleRegistry sampleScreenArguments
          sampleStreams).map (fun fs => (fs 2).written)
        = some ([Char.ofNat 27] ++ "[35m07:05:09.123 main                 | hello".toList
            ++ [Char.ofNat 27] ++ "[0m".toList ++ [Char.ofNat 10]) :=
  ⟨C12_screen_renderer_layout sampleHost sampleRegistry sampleScreenArguments sampleStreams
      screenAtDebug sampleHost_calendarClock rfl (by decide) rfl,
    by decide⟩

theorem terminalColor_eq_table {l : Int} (h : IS_VALID_LOGGING_LEVEL l = true) :
    (g_mdn_Logger_loggingLevelToColorMap l).map g_Logger_colorToTerminalColorMap
      = severityColourEscapes[l.toNat]? := by
  rcases valid_level_cases h with h | h | h | h | h <;> subst h <;> rfl

/-- C13.  For each of the five severities, one call of `mdn_Logger_logToScreen` on a
destination with a stream starts what it sends with the escape the fixed table gives the
severity (`ESC[90m`, `ESC[0m`, `ESC[33m`, `ESC[31m`, `ESC[35m` for DEBUG, INFO, WARNING,
ERROR, CRITICAL) and follows the message with the reset code `ESC[0m` and the newline,
whatever the severity. -/
theorem C13_screen_colour_table (host : Host) (st : Logger_InternalState_t)
    (a : mdn_Logger_logToStreamArguments_t) (fs : Nat → FILE)
    (c : mdn_Logger_StreamConfig_t) (hclock : ClockFits host)
    (hi : st.streamsArr[a.streamIndex]? = some c) (hs : c.stream ≠ 0)
    (hl : IS_VALID_LOGGING_LEVEL a.loggingLevel = true) :
    ∃ escape stamp, severityColourEscapes[a.loggingLevel.toNat]? = some escape
      ∧ timestampText host a.streamIndex false = some stamp
      ∧ mdn_Logger_logToScreen host st a fs
        = some (put c.stream
            (escape ++ stamp ++ (leftJustify 20 a.funcName ++ [Char.ofNat 32])
              ++ ['|', Char.ofNat 32] ++ host.vformat a.format a.args
              ++ resetEscape ++ [Char.ofNat 10]) fs) := by
  obtain ⟨color, hcolor⟩ := colorMap_some hl
  obtain ⟨stamp, hstamp⟩ := timestampText_some host hclock a.streamIndex false
  have htable := terminalColor_eq_table hl
  rw [hcolor] at htable
  refine ⟨g_Logger_colorToTerminalColorMap color, stamp, htable.symm, hstamp, ?_⟩
  rw [logToScreen_eq host st a fs hi hs]
  unfold screenText
  rw [hcolor, hstamp]
  rfl

/-- C13, at a concrete input, with the table itself spelled out. -/
theorem C13_screen_colour_table_witness :
    (∃ escape stamp,
        severityColourEscapes[sampleScreenArguments.loggingLevel.toNat]? = some escape
      ∧ timestampText sampleHost sampleScreenArguments.streamIndex false = some stamp
      ∧ mdn_Logger_logToScreen sampleHost sampleRegistry sampleScreenArguments sampleStreams
        = some (put screenAtDebug.stream
            (escape ++ stamp ++ (leftJustify 20 sampleScreenArguments.funcName
                ++ [Char.ofNat 32])
              ++ ['|', Char.ofNat 32]
              ++ sampleHost.vformat sampleScreenArguments.format sampleScreenArguments.args
              ++ resetEscape ++ [Char.ofNat 10]) sampleStreams))
    ∧ [MDN_LOGGER_LOGGING_LEVEL_DEBUG, MDN_LOGGER_LOGGING_LEVEL_INFO,
          MDN_LOGGER_LOGGING_LEVEL_WARNING, MDN_LOGGER_LOGGING_LEVEL_ERROR,
          MDN_LOGGER_LOGGING_LEVEL_CRITICAL].map
        (fun l => (g_mdn_Logger_loggingLevelToColorMap l).map
          g_Logger_colorToTerminalColorMap)
        = [some [Char.ofNat 27, '[', '9', '0', 'm'], some [Char.ofNat 27, '[', '0', 'm'],
            some [Char.ofNat 27, '[', '3', '3', 'm'], some [Char.ofNat 27, '[', '3', '1', 'm'],
            some [Char.ofNat 27, '[', '3', '5', 'm']] :=
  ⟨C13_screen_colour_table sampleHost sampleRegistry sampleScreenArguments sampleStreams
      screenAtDebug sampleHost_clockFits rfl (by decide) rfl,
    by decide⟩

/-! ## Field padding -/

theorem printFuncName_eq {stream : Nat} (funcName : List Char) (fs : Nat → FILE)
    (hs : stream ≠ 0) :
    mdn_Logger_printFuncName stream funcName fs
      = some (put stream (leftJustify 20 funcName ++ [Char.ofNat 32]) fs) := by
  unfold mdn_Logger_printFuncName
  exact fprintf_eq_put _ _ hs

theorem printLoggingLevel_eq {stream : Nat} {loggingLevel : Int} (fs : Nat → FILE)
    (hs : stream ≠ 0) (hl : IS_VALID_LOGGING_LEVEL loggingLevel = true) :
    ∃ name, severityNames[loggingLevel.toNat]? = some name
      ∧ mdn_Logger_printLoggingLevel stream loggingLevel fs
        = some (put stream (leftJustify 8 name ++ [Char.ofNat 32]) fs) := by
  obtain ⟨name, hname⟩ := strMap_some hl
  refine ⟨name, by rw [← strMap_eq_severityNames hl, hname], ?_⟩
  unfold mdn_Logger_printLoggingLevel
  rw [hname]
  exact fprintf_eq_put _ _ hs

/-- C14, as stated, fails: the padding goes to the right of the name.  For the function
name `main` the field that `mdn_Logger_printFuncName` writes is `main` followed by 16
spaces (then the separating space), not 16 spaces followed by `main`; for INFO the field
that `mdn_Logger_printLoggingLevel` writes is `INFO` followed by 4 spaces. -/
theorem C14_counterexample_padding_on_the_right :
    (mdn_Logger_printFuncName 1 "main".toList sampleStreams).map (fun fs => (fs 1).written)
        = some ("main".toList ++ List.replicate 16 (Char.ofNat 32) ++ [Char.ofNat 32])
      ∧ (mdn_Logger_printFuncName 1 "main".toList sampleStreams).map
          (fun fs => (fs 1).written)
        ≠ some (List.replicate 16 (Char.ofNat 32) ++ "main".toList ++ [Char.ofNat 32])
      ∧ (mdn_Logger_printLoggingLevel 1 MDN_LOGGER_LOGGING_LEVEL_INFO sampleStreams).map
          (fun fs => (fs 1).written)
        = some ("INFO".toList ++ List.replicate 4 (Char.ofNat 32) ++ [Char.ofNat 32])
      ∧ (mdn_Logger_printLoggingLevel 1 MDN_LOGGER_LOGGING_LEVEL_INFO sampleStreams).map
          (fun fs => (fs 1).written)
        ≠ some (List.replicate 4 (Char.ofNat 32) ++ "INFO".toList ++ [Char.ofNat 32]) := by
  decide

/-- C14, amended.  The severity name is written as an upper-case word followed by spaces up
to the width 8, and in both renderers the function name is written followed by spaces up
to the width 20: for every name shorter than its field width the padding spaces are placed
to the right of the name, so the name starts at the first column of its field, and the
field has exactly the width. -/
theorem C14_padding_on_the_right (host : Host) (st : Logger_InternalState_t)
    (a : mdn_Logger_logToStreamArguments_t) (fs : Nat → FILE)
    (c : mdn_Logger_StreamConfig_t) (hclock : ClockFits host)
    (hi : st.streamsArr[a.streamIndex]? = some c) (hs : c.stream ≠ 0)
    (hl : IS_VALID_LOGGING_LEVEL a.loggingLevel = true)
    (hshort : a.funcName.length < 20) :
    ∃ name dateTime time color,
      severityNames[a.loggingLevel.toNat]? = some name
      ∧ (∀ ch ∈ name, ch ∈ "ABCDEFGHIJKLMNOPQRSTUVWXYZ".toList)
      ∧ mdn_Logger_printLoggingLevel c.stream a.loggingLevel fs
        = some (put c.stream
            (name ++ List.replicate (8 - name.length) (Char.ofNat 32) ++ [Char.ofNat 32]) fs)
      ∧ (name ++ List.replicate (8 - name.length) (Char.ofNat 32)).length = 8
      ∧ mdn_Logger_printFuncName c.stream a.funcName fs
        = some (put c.stream
            (a.funcName ++ List.replicate (20 - a.funcName.length) (Char.ofNat 32)
              ++ [Char.ofNat 32]) fs)
      ∧ (a.funcName ++ List.replicate (20 - a.funcName.length) (Char.ofNat 32)).length = 20
      ∧ mdn_Logger_logToFile host st a fs
        = some (put c.stream
            (dateTime
              ++ (name ++ List.replicate (8 - name.length) (Char.ofNat 32)
                  ++ [Char.ofNat 32])
              ++ (a.funcName ++ List.replicate (20 - a.funcName.length) (Char.ofNat 32)
                  ++ [Char.ofNat 32])
              ++ ['|', Char.ofNat 32] ++ host.vformat a.format a.args ++ [Char.ofNat 10]) fs)
      ∧ mdn_Logger_logToScreen host st a fs
        = some (put c.stream
            (g_Logger_colorToTerminalColorMap color ++ time
              ++ (a.funcName ++ List.replicate (20 - a.funcName.length) (Char.ofNat 32)
                  ++ [Char.ofNat 32])
              ++ ['|', Char.ofNat 32] ++ host.vformat a.format a.args
              ++ g_Logger_colorToTerminalColorMap LOGGING_COLOR_RESET ++ [Char.ofNat 10])
            fs) := by
  obtain ⟨name, hname⟩ := strMap_some hl
  obtain ⟨color, hcolor⟩ := colorMap_some hl
  obtain ⟨s1, hs1⟩ := timestampText_some host hclock a.streamIndex true
  obtain ⟨s2, hs2⟩ := timestampText_some host hclock a.streamIndex false
  have htab : severityNames[a.loggingLevel.toNat]? = some name := by
    rw [← strMap_eq_severityNames hl, hname]
  have hlen := severityNames_length_le htab
  refine ⟨name, s1, s2, color, htab, fun ch hch => severityNames_upper htab hch, ?_, ?_, ?_,
    ?_, ?_, ?_⟩
  · obtain ⟨name1, hname1, hprint⟩ := printLoggingLevel_eq fs hs hl
    rw [htab] at hname1
    rw [hprint, ← Option.some.inj hname1]
    rfl
  · simp only [List.length_append, List.length_replicate]
    omega
  · rw [printFuncName_eq a.funcName fs hs]
    rfl
  · simp only [List.length_append, List.length_replicate]
    omega
  · rw [logToFile_eq host st a fs hi hs]
    unfold fileText
    rw [hs1, hname]
    rfl
  · rw [logToScreen_eq host st a fs hi hs]
    unfold screenText
    rw [hcolor, hs2]
    rfl

/-- C14 amended, at a concrete input: the name `main` and the severity CRITICAL. -/
theorem C14_padding_on_the_right_witness :
    sampleArguments.funcName.length < 20
      ∧ ∃ name, severityNames[sampleArguments.loggingLevel.toNat]? = some name
        ∧ mdn_Logger_printLoggingLevel fileAtWarning.stream sampleArguments.loggingLevel
            sampleStreams
          = some (put fileAtWarning.stream
              (name ++ List.replicate (8 - name.length) (Char.ofNat 32) ++ [Char.ofNat 32])
              sampleStreams)
        ∧ mdn_Logger_printFuncName fileAtWarning.stream sampleArguments.funcName
            sampleStreams
          = some (put fileAtWarning.stream
              (sampleArguments.funcName
                ++ List.replicate (20 - sampleArguments.funcName.length) (Char.ofNat 32)
                ++ [Char.ofNat 32]) sampleStreams)
        ∧ (sampleArguments.funcName
            ++ List.replicate (20 - sampleArguments.funcName.length) (Char.ofNat 32)).length
          = 20 := by
  obtain ⟨name, _, _, _, h1, _, h3, _, h5, h6, _, _⟩ :=
    C14_padding_on_the_right sampleHost sampleRegistry sampleArguments sampleStreams
      fileAtWarning sampleHost_clockFits rfl (by decide) rfl (by decide)
  exact ⟨by decide, name, h1, h3, h5, h6⟩

theorem leftJustify_of_le {width : Nat} {text : List Char} (h : width ≤ text.length) :
    leftJustify width text = text := by
  unfold leftJustify
  rw [Nat.sub_eq_zero_of_le h]
  simp

/-- C15.  A function name of 20 characters or more is written in full with no padding, and
a shorter one is followed by spaces up to exactly 20 characters; the severity label is
followed by spaces up to exactly 8 characters, `CRITICAL` getting none.  In both renderers
exactly one space separates a field from what follows it, so that the function name field
is followed by exactly ` | ` and then the message. -/
theorem C15_no_truncation_one_space (host : Host) (st : Logger_InternalState_t)
    (a : mdn_Logger_logToStreamArguments_t) (fs : Nat → FILE)
    (c : mdn_Logger_StreamConfig_t) (hclock : ClockFits host)
    (hi : st.streamsArr[a.streamIndex]? = some c) (hs : c.stream ≠ 0)
    (hl : IS_VALID_LOGGING_LEVEL a.loggingLevel = true) :
    ∃ name dateTime time color funcField nameField,
      severityNames[a.loggingLevel.toNat]? = some name
      ∧ funcField = leftJustify 20 a.funcName
      ∧ nameField = leftJustify 8 name
      ∧ (20 ≤ a.funcName.length → funcField = a.funcName)
      ∧ (a.funcName.length < 20 → funcField.length = 20 ∧ a.funcName <+: funcField)
      ∧ nameField.length = 8
      ∧ leftJustify 8 "CRITICAL".toList = "CRITICAL".toList
      ∧ mdn_Logger_logToFile host st a fs
        = some (put c.stream
            (dateTime ++ nameField ++ [Char.ofNat 32] ++ funcField
              ++ [Char.ofNat 32, '|', Char.ofNat 32] ++ host.vformat a.format a.args
              ++ [Char.ofNat 10]) fs)
      ∧ mdn_Logger_logToScreen host st a fs
        = some (put c.stream
            (g_Logger_colorToTerminalColorMap color ++ time ++ funcField
              ++ [Char.ofNat 32, '|', Char.ofNat 32] ++ host.vformat a.format a.args
              ++ g_Logger_colorToTerminalColorMap LOGGING_COLOR_RESET ++ [Char.ofNat 10])
            fs) := by
  obtain ⟨name, hname⟩ := strMap_some hl
  obtain ⟨color, hcolor⟩ := colorMap_some hl
  obtain ⟨s1, hs1⟩ := timestampText_some host hclock a.streamIndex true
  obtain ⟨s2, hs2⟩ := timestampText_some host hclock a.streamIndex false
  have htab : severityNames[a.loggingLevel.toNat]? = some name := by
    rw [← strMap_eq_severityNames hl, hname]
  have hlen := severityNames_length_le htab
  refine ⟨name, s1, s2, color, _, _, htab, rfl, rfl, fun h => leftJustify_of_le h, ?_, ?_,
    by decide, ?_, ?_⟩
  · intro hshort
    refine ⟨?_, ?_⟩
    · rw [leftJustify_length]
      omega
    · exact ⟨_, rfl⟩
  · rw [leftJustify_length]
    omega
  · rw [logToFile_eq host st a fs hi hs]
    unfold fileText
    rw [hs1, hname]
    simp [List.append_assoc]
  · rw [logToScreen_eq host st a fs hi hs]
    unfold screenText
    rw [hcolor, hs2]
    simp [List.append_assoc]

/-- C15, at a concrete input: a function name of 22 characters is followed by ` | `. -/
theorem C15_no_truncation_one_space_witness :
    20 ≤ sampleLongNameArguments.funcName.length
      ∧ (∃ name dateTime time color funcField nameField,
          severityNames[sampleLongNameArguments.loggingLevel.toNat]? = some name
          ∧ funcField = leftJustify 20 sampleLongNameArguments.funcName
          ∧ nameField = leftJustify 8 name
          ∧ (20 ≤ sampleLongNameArguments.funcName.length →
              funcField = sampleLongNameArguments.funcName)
          ∧ (sampleLongNameArguments.funcName.length < 20 →
              funcField.length = 20 ∧ sampleLongNameArguments.funcName <+: funcField)
          ∧ nameField.length = 8
          ∧ leftJustify 8 "CRITICAL".toList = "CRITICAL".toList
          ∧ mdn_Logger_logToFile sampleHost sampleRegistry sampleLongNameArguments
              sampleStreams
            = some (put fileAtWarning.stream
                (dateTime ++ nameField ++ [Char.ofNat 32] ++ funcField
                  ++ [Char.ofNat 32, '|', Char.ofNat 32]
                  ++ sampleHost.vformat sampleLongNameArguments.format
                      sampleLongNameArguments.args
                  ++ [Char.ofNat 10]) sampleStreams)
          ∧ mdn_Logger_logToScreen sampleHost sampleRegistry sampleLongNameArguments
              sampleStreams
            = some (put fileAtWarning.stream
                (g_Logger_colorToTerminalColorMap color ++ time ++ funcField
                  ++ [Char.ofNat 32, '|', Char.ofNat 32]
                  ++ sampleHost.vformat sampleLongNameArguments.format
                      sampleLongNameArguments.args
                  ++ g_Logger_colorToTerminalColorMap LOGGING_COLOR_RESET
                  ++ [Char.ofNat 10]) sampleStreams))
      ∧ (mdn_Logger_logToFile sampleHost sampleRegistry sampleLongNameArguments
            sampleStreams).map (fun fs => (fs 1).written)
          = some ("2026-10-31 07:05:09.123 CRITICAL LoggerTest.PrintToFile | hello".toList
              ++ [Char.ofNat 10]) :=
  ⟨by decide,
    C15_no_truncation_one_space sampleHost sampleRegistry sampleLongNameArguments
      sampleStreams fileAtWarning sampleHost_clockFits rfl (by decide) rfl,
    by decide⟩

/-! ## Arguments and order of delivery -/

/-- The text of a renderer is the message inside a frame that does not depend on it. -/
theorem lineText_frame (host : Host) (hclock : ClockFits host) (tick : Nat)
    {loggingFormat loggingLevel : Int}
    (hf : IS_VALID_LOGGING_FORMAT loggingFormat = true)
    (hl : IS_VALID_LOGGING_LEVEL loggingLevel = true) (funcName : List Char) :
    ∃ header trailer, ∀ message,
      lineText host tick loggingFormat loggingLevel funcName message
        = some (header ++ message ++ trailer) := by
  obtain ⟨s1, hs1⟩ := timestampText_some host hclock tick false
  obtain ⟨s2, hs2⟩ := timestampText_some host hclock tick true
  obtain ⟨color, hcolor⟩ := colorMap_some hl
  obtain ⟨name, hname⟩ := strMap_some hl
  rcases valid_format_cases hf with hf | hf <;> subst hf
  · refine ⟨g_Logger_colorToTerminalColorMap color ++ s1
        ++ (leftJustify 20 funcName ++ [Char.ofNat 32]) ++ ['|', Char.ofNat 32],
      g_Logger_colorToTerminalColorMap LOGGING_COLOR_RESET ++ [Char.ofNat 10], ?_⟩
    intro message
    unfold lineText screenText
    rw [if_pos (show (0 : Int) = MDN_LOGGER_LOGGING_FORMAT_SCREEN from rfl), hcolor, hs1]
    simp [List.append_assoc]
  · refine ⟨s2 ++ (leftJustify 8 name ++ [Char.ofNat 32])
        ++ (leftJustify 20 funcName ++ [Char.ofNat 32]) ++ ['|', Char.ofNat 32],
      [Char.ofNat 10], ?_⟩
    intro message
    unfold lineText fileText
    rw [if_neg (by decide), if_pos (show (1 : Int) = MDN_LOGGER_LOGGING_FORMAT_FILE from rfl),
      hname, hs2]
    simp [List.append_assoc]

/-- C16.  On a registry of valid entries, every destination whose threshold admits the
severity and whose stream accepts writes finds in its stream its line, which is the frame
of its renderer around the expansion of the message template against the complete argument
list of the call: the expansion is the same for every destination, however many admitted
destinations come before it. -/
theorem C16_every_destination_full_expansion (host : Host) (loggingLevel : Int)
    (file : List Char) (line : Int) (funcName format : List Char) (varargs : List Arg)
    (w : World) (st : Logger_InternalState_t)
    (hg : w.g_Logger_internalState = some st) (hok : RegistryOk st)
    (hl : IS_VALID_LOGGING_LEVEL loggingLevel = true) (hclock : ClockFits host) :
    ∃ w1, mdn_Logger_log host loggingLevel file line funcName format varargs w = some w1
      ∧ ∀ j cfg, st.streamsArr[j]? = some cfg → cfg.loggingLevel ≤ loggingLevel →
          (w.streams cfg.stream).error = false →
          ∃ header trailer before after,
            (∀ message, lineText host j cfg.loggingFormat loggingLevel funcName message
              = some (header ++ message ++ trailer))
            ∧ (w1.streams cfg.stream).written
              = (w.streams cfg.stream).written ++ before
                ++ (header ++ host.vformat format varargs ++ trailer) ++ after := by
  obtain ⟨w1, hlog, _, hstreams⟩ :=
    log_eq host loggingLevel file line funcName format varargs w hg hok hl hclock
  refine ⟨w1, hlog, ?_⟩
  intro j cfg hj hge hwr
  have hcfg : ValidConfig cfg := hok.2 cfg (List.getElem?_mem hj)
  obtain ⟨header, trailer, hframe⟩ := lineText_frame host hclock j hcfg.2.2 hl funcName
  refine ⟨header, trailer,
    owed host loggingLevel funcName (host.vformat format varargs) cfg.stream 0
      (st.streamsArr.take j),
    owed host loggingLevel funcName (host.vformat format varargs) cfg.stream (j + 1)
      (st.streamsArr.drop (j + 1)), hframe, ?_⟩
  have hsplit := owed_split host loggingLevel funcName (host.vformat format varargs) cfg
    (header ++ host.vformat format varargs ++ trailer) st.streamsArr 0 j hj
    (not_lt.mpr hge) (by rw [Nat.zero_add]; exact hframe _)
  rw [hstreams, if_pos hwr, hsplit, Nat.zero_add]
  simp only [FILE.receive, List.append_assoc]

theorem sampleExpandingHost_clockFits : ClockFits sampleExpandingHost := by
  intro tick
  show (strftime ⟨126, 9, 31, 7, 5, 9⟩).isSome = true
  decide

/-- C16, at a concrete input: a CRITICAL call with one string argument on the registry in
which stream 1 is registered twice; both lines of stream 1 carry the full expansion. -/
theorem C16_every_destination_full_expansion_witness :
    (∃ w1, mdn_Logger_log sampleExpandingHost MDN_LOGGER_LOGGING_LEVEL_CRITICAL
          "main.c".toList 7 "main".toList "hello ".toList [Arg.str "world".toList]
          sampleSharedLoaded = some w1
      ∧ ∀ j cfg, sampleSharedRegistry.streamsArr[j]? = some cfg →
          cfg.loggingLevel ≤ MDN_LOGGER_LOGGING_LEVEL_CRITICAL →
          (sampleSharedLoaded.streams cfg.stream).error = false →
          ∃ header trailer before after,
            (∀ message, lineText sampleExpandingHost j cfg.loggingFormat
                MDN_LOGGER_LOGGING_LEVEL_CRITICAL "main".toList message
              = some (header ++ message ++ trailer))
            ∧ (w1.streams cfg.stream).written
              = (sampleSharedLoaded.streams cfg.stream).written ++ before
                ++ (header
                  ++ sampleExpandingHost.vformat "hello ".toList [Arg.str "world".toList]
                  ++ trailer) ++ after)
    ∧ (mdn_Logger_log sampleExpandingHost MDN_LOGGER_LOGGING_LEVEL_CRITICAL
          "main.c".toList 7 "main".toList "hello ".toList [Arg.str "world".toList]
          sampleSharedLoaded).map (fun w1 => (w1.streams 1).written)
        = some ("2026-10-31 07:05:09.123 CRITICAL main                 | hello world".toList
            ++ [Char.ofNat 10]
            ++ "2026-10-31 07:05:09.123 CRITICAL main                 | hello world".toList
            ++ [Char.ofNat 10]) :=
  ⟨C16_every_destination_full_expansion sampleExpandingHost
      MDN_LOGGER_LOGGING_LEVEL_CRITICAL "main.c".toList 7 "main".toList "hello ".toList
      [Arg.str "world".toList] sampleSharedLoaded sampleSharedRegistry rfl (by decide) rfl
      sampleExpandingHost_clockFits,
    by decide⟩

theorem owed_eq_join (host : Host) (loggingLevel : Int) (funcName message : List Char)
    (target : Nat) : ∀ (l : List mdn_Logger_StreamConfig_t) (idx : Nat),
      owed host loggingLevel funcName message target idx l
        = (((l.enumFrom idx).filter fun p =>
              decide (p.2.stream = target ∧ ¬ loggingLevel < p.2.loggingLevel)).map
            fun p => (lineText host p.1 p.2.loggingFormat loggingLevel funcName
              message).getD []).flatten := by
  intro l
  induction l with
  | nil => intro idx; rfl
  | cons c rest ih =>
    intro idx
    simp only [owed, List.enumFrom_cons, List.filter_cons]
    by_cases hc : c.stream = target ∧ ¬ loggingLevel < c.loggingLevel
    · rw [if_pos hc, if_pos (by simpa using hc), List.map_cons, List.flatten_cons, ih (idx + 1)]
    · rw [if_neg hc, if_neg (by simpa using hc), List.nil_append, ih (idx + 1)]

/-- C17.  On a registry of valid entries, a stream that accepts writes receives from one
`mdn_Logger_log` call one line for each registration that names it and admits the
severity, duplicates included: the lines are appended in registration order, there are as
many as such registrations, and each is the text of the renderer selected by the format of
its own registration, ending with the newline that renderer appends. -/
theorem C17_one_line_per_registration (host : Host) (loggingLevel : Int)
    (file : List Char) (line : Int) (funcName format : List Char) (varargs : List Arg)
    (w : World) (st : Logger_InternalState_t) (target : Nat)
    (hg : w.g_Logger_internalState = some st) (hok : RegistryOk st)
    (hl : IS_VALID_LOGGING_LEVEL loggingLevel = true) (hclock : ClockFits host)
    (hwr : (w.streams target).error = false) :
    ∃ (w1 : World) (lines : List (List Char)),
      mdn_Logger_log host loggingLevel file line funcName format varargs w = some w1
      ∧ lines.length = (admittedRegistrations loggingLevel target st.streamsArr).length
      ∧ (admittedRegistrations loggingLevel target st.streamsArr).map
          (fun p => lineText host p.1 p.2.loggingFormat loggingLevel funcName
            (host.vformat format varargs))
        = lines.map some
      ∧ (∀ text ∈ lines, ∃ record, text = record ++ [Char.ofNat 10])
      ∧ (w1.streams target).written = (w.streams target).written ++ lines.flatten := by
  obtain ⟨w1, hlog, _, hstreams⟩ :=
    log_eq host loggingLevel file line funcName format varargs w hg hok hl hclock
  have hsome : ∀ p ∈ admittedRegistrations loggingLevel target st.streamsArr,
      ∃ record, lineText host p.1 p.2.loggingFormat loggingLevel funcName
        (host.vformat format varargs) = some (record ++ [Char.ofNat 10]) := by
    intro p hp
    have hmem : p.2 ∈ st.streamsArr :=
      List.snd_mem_of_mem_enum (List.mem_of_mem_filter hp)
    exact lineText_some host hclock p.1 (hok.2 p.2 hmem).2.2 hl funcName _
  refine ⟨w1,
    (admittedRegistrations loggingLevel target st.streamsArr).map fun p =>
      (lineText host p.1 p.2.loggingFormat loggingLevel funcName
        (host.vformat format varargs)).getD [],
    hlog, by simp, ?_, ?_, ?_⟩
  · rw [List.map_map]
    apply List.map_congr_left
    intro p hp
    obtain ⟨record, hrec⟩ := hsome p hp
    simp [hrec]
  · intro text htext
    obtain ⟨p, hp, rfl⟩ := List.mem_map.mp htext
    obtain ⟨record, hrec⟩ := hsome p hp
    exact ⟨record, by simp [hrec]⟩
  · rw [hstreams, if_pos hwr, owed_eq_join]
    rfl

/-- C17, at a concrete input: stream 1 registered as a file and as a screen destination
receives the file line and then the screen line of one CRITICAL call. -/
theorem C17_one_line_per_registration_witness :
    (∃ (w1 : World) (lines : List (List Char)),
      mdn_Logger_log sampleHost MDN_LOGGER_LOGGING_LEVEL_CRITICAL "main.c".toList 7
          "main".toList "hello".toList [] sampleMixedLoaded = some w1
      ∧ lines.length
        = (admittedRegistrations MDN_LOGGER_LOGGING_LEVEL_CRITICAL 1
            sampleMixedRegistry.streamsArr).length
      ∧ (admittedRegistrations MDN_LOGGER_LOGGING_LEVEL_CRITICAL 1
            sampleMixedRegistry.streamsArr).map
          (fun p => lineText sampleHost p.1 p.2.loggingFormat
            MDN_LOGGER_LOGGING_LEVEL_CRITICAL "main".toList
            (sampleHost.vformat "hello".toList []))
        = lines.map some
      ∧ (∀ text ∈ lines, ∃ record, text = record ++ [Char.ofNat 10])
      ∧ (w1.streams 1).written = (sampleMixedLoaded.streams 1).written ++ lines.flatten)
    ∧ admittedRegistrations MDN_LOGGER_LOGGING_LEVEL_CRITICAL 1
          sampleMixedRegistry.streamsArr
        = [(0, fileAtDebug), (2, screenOnStreamOne)]
    ∧ (mdn_Logger_log sampleHost MDN_LOGGER_LOGGING_LEVEL_CRITICAL "main.c".toList 7
          "main".toList "hello".toList [] sampleMixedLoaded).map
          (fun w1 => (w1.streams 1).written)
        = some ("2026-10-31 07:05:09.123 CRITICAL main                 | hello".toList
            ++ [Char.ofNat 10, Char.ofNat 27]
            ++ "[35m07:05:09.123 main                 | hello".toList
            ++ [Char.ofNat 27] ++ "[0m".toList ++ [Char.ofNat 10]) :=
  ⟨C17_one_line_per_registration sampleHost MDN_LOGGER_LOGGING_LEVEL_CRITICAL
      "main.c".toList 7 "main".toList "hello".toList [] sampleMixedLoaded
      sampleMixedRegistry 1 rfl (by decide) rfl sampleHost_clockFits rfl,
    by decide, by decide⟩

/-! ## Build-time floor -/

theorem expansionOf_isSome_irrelevant (loggingLevel : Int) (b : BuildConfig)
    (site : CallSite) (format : List Char) (varargs : List Arg) :
    (expansionOf loggingLevel b site format varargs).isSome
      = (expansionOf loggingLevel b sampleSite [] []).isSome := by
  unfold expansionOf MDN_LOGGER_LOG_DEBUG MDN_LOGGER_LOG_INFO MDN_LOGGER_LOG_WARNING
    MDN_LOGGER_LOG_ERROR MDN_LOGGER_LOG_CRITICAL
  split_ifs <;> rfl

/-- C18, as stated, fails for a build that selects more than one floor: the build that
defines the macros of both DEBUG and ERROR gets past the guard of either header, and every
log macro expands to a call in it. -/
theorem C18_counterexample_two_floors_accepted :
    debugAndErrorBuild.DEBUG = true ∧ debugAndErrorBuild.ERROR = true
      ∧ logger_h_guard debugAndErrorBuild = true
      ∧ mdn_logger_h_guard debugAndErrorBuild = true
      ∧ (MDN_LOGGER_LOG_DEBUG debugAndErrorBuild sampleSite "hello".toList []).isSome = true
      ∧ (MDN_LOGGER_LOG_INFO debugAndErrorBuild sampleSite "hello".toList []).isSome = true
      ∧ (MDN_LOGGER_LOG_WARNING debugAndErrorBuild sampleSite "hello".toList []).isSome
          = true := by
  decide

/-- C18, amended.  A build that defines none of the floor-selection macros is rejected by
the guard of the header, and only such a build is: a build that defines one of them or
more than one is accepted, and then the macro of a severity expands to a call exactly when
the build defines the macro of some floor, DEBUG to CRITICAL, at or below that severity,
so that the lowest selected floor is the one in effect. -/
theorem C18_guard_rejects_only_no_floor (b : BuildConfig) (site : CallSite)
    (format : List Char) (varargs : List Arg) :
    (logger_h_guard b = false
        ↔ (b.DEBUG = false ∧ b.INFO = false ∧ b.WARNING = false ∧ b.ERROR = false
            ∧ b.CRITICAL = false))
      ∧ (mdn_logger_h_guard b = false
        ↔ (b.DEBUG = false ∧ b.INFO = false ∧ b.WARNING = false ∧ b.ERROR = false
            ∧ b.CRITICAL = false ∧ b.NONE = false))
      ∧ ∀ severity : Nat, severity ≤ 4 →
          ((expansionOf (severity : Int) b site format varargs).isSome = true
            ↔ ∃ floor, floor ≤ severity ∧ b.defines floor = true) := by
  obtain ⟨d, i, w, e, c, n⟩ := b
  refine ⟨?_, ?_, ?_⟩
  · cases d <;> cases i <;> cases w <;> cases e <;> cases c <;> simp [logger_h_guard]
  · cases d <;> cases i <;> cases w <;> cases e <;> cases c <;> cases n <;>
      simp [mdn_logger_h_guard]
  · intro severity hsev
    rw [expansionOf_isSome_irrelevant]
    interval_cases severity <;>
      cases d <;> cases i <;> cases w <;> cases e <;> cases c <;> cases n <;> decide

/-- C18 amended, at concrete inputs: the build without a floor is rejected by both guards,
and in the build with the floors DEBUG and ERROR the macro of INFO expands to a call. -/
theorem C18_guard_rejects_only_no_floor_witness :
    logger_h_guard noFloorBuild = false ∧ mdn_logger_h_guard noFloorBuild = false
      ∧ (expansionOf ((1 : Nat) : Int) debugAndErrorBuild sampleSite "hello".toList []).isSome
          = true :=
  ⟨(C18_guard_rejects_only_no_floor noFloorBuild sampleSite [] []).1.mpr
      ⟨rfl, rfl, rfl, rfl, rfl⟩,
    (C18_guard_rejects_only_no_floor noFloorBuild sampleSite [] []).2.1.mpr
      ⟨rfl, rfl, rfl, rfl, rfl, rfl⟩,
    ((C18_guard_rejects_only_no_floor debugAndErrorBuild sampleSite "hello".toList []).2.2
      1 (by decide)).mpr ⟨0, by decide, rfl⟩⟩

theorem floorAlone_defines (floor : Nat) (hf : floor ≤ 5) (k : Nat) :
    (floorAlone floor).defines k = true ↔ k = floor := by
  interval_cases floor <;> rcases k with _ | _ | _ | _ | _ | _ | k <;>
    simp [BuildConfig.defines, floorAlone]

/-- C19.  In the build that defines the macro of one floor and no other (DEBUG to CRITICAL,
or NONE for `include/mdn/logger.h`), which the guard of the header accepts, the macro
`MDN_LOGGER_LOG_<L>` of every severity `L` at or above the floor expands to the call of
`mdn_Logger_log` with the severity `L`, the file, line and function name of the call
site, and the format and arguments given; the macro of every severity below the floor
expands to nothing, so that running it changes nothing and consults no registry. -/
theorem C19_floor_alone_expansion (floor severity : Nat) (hf : floor ≤ 5)
    (hs : severity ≤ 4) (site : CallSite) (format : List Char) (varargs : List Arg)
    (host : Host) (w : World) :
    mdn_logger_h_guard (floorAlone floor) = true
      ∧ (floor ≤ 4 → logger_h_guard (floorAlone floor) = true)
      ∧ (∀ k, (floorAlone floor).defines k = true ↔ k = floor)
      ∧ expansionOf (severity : Int) (floorAlone floor) site format varargs
        = (if floor ≤ severity then
            some ⟨(severity : Int), site.file, site.line, site.func, format, varargs⟩
          else none)
      ∧ expansionEffect host
          (expansionOf (severity : Int) (floorAlone floor) site format varargs) w
        = (if floor ≤ severity then
            mdn_Logger_log host (severity : Int) site.file site.line site.func format
              varargs w
          else some w) := by
  refine ⟨?_, ?_, floorAlone_defines floor hf, ?_, ?_⟩
  · interval_cases floor <;> rfl
  · intro h4
    interval_cases floor <;> rfl
  · interval_cases floor <;> interval_cases severity <;> rfl
  · interval_cases floor <;> interval_cases severity <;> rfl

/-- C19, at concrete inputs: with the floor WARNING alone, the macro of ERROR is a call and
the macro of INFO is nothing. -/
theorem C19_floor_alone_expansion_witness :
    expansionOf ((3 : Nat) : Int) (floorAlone 2) sampleSite "hello".toList []
        = some ⟨MDN_LOGGER_LOGGING_LEVEL_ERROR, "main.c".toList, 7, "main".toList,
            "hello".toList, []⟩
      ∧ expansionOf ((1 : Nat) : Int) (floorAlone 2) sampleSite "hello".toList [] = none
      ∧ expansionEffect sampleHost
          (expansionOf ((1 : Nat) : Int) (floorAlone 2) sampleSite "hello".toList [])
          sampleWorld = some sampleWorld :=
  ⟨(C19_floor_alone_expansion 2 3 (by decide) (by decide) sampleSite "hello".toList []
      sampleHost sampleWorld).2.2.2.1,
    (C19_floor_alone_expansion 2 1 (by decide) (by decide) sampleSite "hello".toList []
      sampleHost sampleWorld).2.2.2.1,
    (C19_floor_alone_expansion 2 1 (by decide) (by decide) sampleSite "hello".toList []
      sampleHost sampleWorld).2.2.2.2⟩

/-! ## The safe-mode invariant -/

theorem addOutputStream_safe_keeps_ok {reallocOk : Bool}
    {streamConfig : mdn_Logger_StreamConfig_t} {w w1 : World} {status : mdn_Status_t}
    (hinv : ∀ st, w.g_Logger_internalState = some st → RegistryOk st)
    (h : mdn_Logger_addOutputStream true reallocOk streamConfig w = some (status, w1)) :
    ∀ st, w1.g_Logger_internalState = some st → RegistryOk st := by
  unfold mdn_Logger_addOutputStream at h
  cases hg : w.g_Logger_internalState with
  | none =>
    simp only [hg, ↓reduceIte, Option.some.injEq, Prod.mk.injEq] at h
    rw [← h.2]
    exact hinv
  | some st0 =>
    have hok0 := hinv st0 hg
    simp only [hg, Bool.true_and] at h
    split_ifs at h with h1 h2 h3
    · simp only [Option.some.injEq, Prod.mk.injEq] at h
      rw [← h.2]; exact hinv
    · simp only [Option.some.injEq, Prod.mk.injEq] at h
      rw [← h.2]; exact hinv
    · simp only [Option.some.injEq, Prod.mk.injEq] at h
      rw [← h.2]; exact hinv
    · have hvalid : ValidConfig streamConfig := by
        refine ⟨?_, ?_, ?_⟩
        · simpa using h1
        · simpa using h2
        · simpa using h3
      cases reallocOk
      · simp only [MDN_MW_realloc, Bool.false_eq_true, ↓reduceIte, Option.some.injEq,
          Prod.mk.injEq] at h
        rw [← h.2]
        intro st hst
        simp only [Option.some.injEq] at hst
        rw [← hst]
        exact hok0
      · simp only [MDN_MW_realloc, ↓reduceIte, Option.some.injEq, Prod.mk.injEq] at h
        rw [← h.2]
        intro st hst
        simp only [Option.some.injEq] at hst
        rw [← hst, ← hok0.1, realloc_set_grow]
        refine ⟨by simp, ?_⟩
        intro c hc
        rcases List.mem_append.mp hc with hc | hc
        · exact hok0.2 c hc
        · rw [List.mem_singleton.mp hc]
          exact hvalid

theorem step_safe_keeps_ok {c : Call} {w w1 : World} {r : Option mdn_Status_t}
    (hinv : ∀ st, w.g_Logger_internalState = some st → RegistryOk st)
    (h : step true w c = some (r, w1)) :
    ∀ st, w1.g_Logger_internalState = some st → RegistryOk st := by
  cases c with
  | init mallocOk =>
    simp only [step, Option.some.injEq, Prod.mk.injEq] at h
    rw [← h.2]
    unfold mdn_Logger_init
    cases hg : w.g_Logger_internalState with
    | some st0 =>
      simp only [Option.isSome_some, Bool.and_self, ↓reduceIte]
      exact hinv
    | none =>
      cases mallocOk
      · simp [MDN_MW_malloc]
      · simp only [Option.isSome_none, Bool.and_false, Bool.false_eq_true, ↓reduceIte,
          MDN_MW_malloc]
        intro st hst
        simp only [Option.some.injEq] at hst
        rw [← hst]
        exact ⟨rfl, by simp⟩
  | deinit =>
    simp only [step] at h
    unfold mdn_Logger_deinit at h
    cases hg : w.g_Logger_internalState with
    | none =>
      simp only [hg, ↓reduceIte, Option.map_some', Option.some.injEq, Prod.mk.injEq] at h
      rw [← h.2]
      exact hinv
    | some st0 =>
      simp only [hg, Option.map_some', Option.some.injEq, Prod.mk.injEq] at h
      rw [← h.2]
      intro st hst
      simp at hst
  | addOutputStream reallocOk streamConfig =>
    simp only [step] at h
    cases hadd : mdn_Logger_addOutputStream true reallocOk streamConfig w with
    | none => simp [hadd] at h
    | some r1 =>
      obtain ⟨s1, w2⟩ := r1
      simp only [hadd, Option.map_some', Option.some.injEq, Prod.mk.injEq] at h
      rw [← h.2]
      exact addOutputStream_safe_keeps_ok hinv hadd
  | log host loggingLevel file line funcName format varargs =>
    simp only [step] at h
    cases hlog : mdn_Logger_log host loggingLevel file line funcName format varargs w with
    | none => simp [hlog] at h
    | some w2 =>
      simp only [hlog, Option.map_some', Option.some.injEq, Prod.mk.injEq] at h
      rw [← h.2, log_keeps_registry hlog]
      exact hinv

theorem run_safe_keeps_ok :
    ∀ (calls : List Call) (w w1 : World) (sts : List (Option mdn_Status_t)),
      (∀ st, w.g_Logger_internalState = some st → RegistryOk st) →
      run true calls w = some (sts, w1) →
      ∀ st, w1.g_Logger_internalState = some st → RegistryOk st := by
  intro calls
  induction calls with
  | nil =>
    intro w w1 sts hinv hrun
    simp only [run, Option.some.injEq, Prod.mk.injEq] at hrun
    rw [← hrun.2]; exact hinv
  | cons c rest ih =>
    intro w w1 sts hinv hrun
    simp only [run] at hrun
    cases hstep : step true w c with
    | none => simp [hstep] at hrun
    | some r =>
      obtain ⟨status, w2⟩ := r
      simp only [hstep] at hrun
      cases hrest : run true rest w2 with
      | none => simp [hrest] at hrun
      | some r2 =>
        obtain ⟨rs, w3⟩ := r2
        simp only [hrest, Option.some.injEq, Prod.mk.injEq] at hrun
        rw [← hrun.2]
        exact ih w2 w3 rs (step_safe_keeps_ok hinv hstep) hrest

/-- C20.  In safe mode, in every state reached from the start of the process by calls of
`mdn_Logger_init`, `mdn_Logger_deinit`, `mdn_Logger_addOutputStream` and `mdn_Logger_log`,
the count of the registry agrees with its array and every destination has a stream other
than `NULL`, a level in `0 .. MDN_LOGGER_LOGGING_LEVEL_COUNT - 1` and a format in
`0 .. MDN_LOGGER_LOGGING_FORMAT_COUNT - 1`.  Hence, for a log call with a valid severity,
every index below the count finds an entry, the format of every entry finds its renderer,
and the severity finds its colour and its name. -/
theorem C20_safe_mode_registry_invariant (w0 w : World) (calls : List Call)
    (sts : List (Option mdn_Status_t)) (st : Logger_InternalState_t)
    (hstart : w0.g_Logger_internalState = none)
    (hrun : run true calls w0 = some (sts, w))
    (hg : w.g_Logger_internalState = some st) :
    st.streamsArr.length = st.streamsArrLen
      ∧ (∀ c ∈ st.streamsArr, c.stream ≠ 0
          ∧ 0 ≤ c.loggingLevel ∧ c.loggingLevel < MDN_LOGGER_LOGGING_LEVEL_COUNT
          ∧ 0 ≤ c.loggingFormat ∧ c.loggingFormat < MDN_LOGGER_LOGGING_FORMAT_COUNT)
      ∧ ∀ loggingLevel : Int, 0 ≤ loggingLevel →
          loggingLevel < MDN_LOGGER_LOGGING_LEVEL_COUNT →
          (∀ idx, idx < st.streamsArrLen → (st.streamsArr[idx]?).isSome = true)
          ∧ (∀ c ∈ st.streamsArr,
              (g_mdn_Logger_logFormatToFuncMap c.loggingFormat).isSome = true)
          ∧ (g_mdn_Logger_loggingLevelToColorMap loggingLevel).isSome = true
          ∧ (g_mdn_Logger_logLevelToStrMap loggingLevel).isSome = true := by
  have hok : RegistryOk st :=
    run_safe_keeps_ok calls w0 w sts (fun st0 h0 => by rw [hstart] at h0; simp at h0) hrun
      st hg
  have hentry : ∀ c ∈ st.streamsArr, c.stream ≠ 0
      ∧ 0 ≤ c.loggingLevel ∧ c.loggingLevel < MDN_LOGGER_LOGGING_LEVEL_COUNT
      ∧ 0 ≤ c.loggingFormat ∧ c.loggingFormat < MDN_LOGGER_LOGGING_FORMAT_COUNT := by
    intro c hc
    obtain ⟨h1, h2, h3⟩ := hok.2 c hc
    simp only [IS_VALID_LOGGING_LEVEL, IS_VALID_LOGGING_FORMAT, Bool.and_eq_true,
      decide_eq_true_eq] at h2 h3
    exact ⟨h1, h2.1, h2.2, h3.1, h3.2⟩
  refine ⟨hok.1, hentry, ?_⟩
  intro loggingLevel h0 h5
  have hl : IS_VALID_LOGGING_LEVEL loggingLevel = true := by
    simp only [IS_VALID_LOGGING_LEVEL, Bool.and_eq_true, decide_eq_true_eq]
    exact ⟨h0, h5⟩
  refine ⟨?_, ?_, ?_, ?_⟩
  · intro idx hidx
    rw [← hok.1] at hidx
    rw [List.getElem?_eq_getElem hidx]
    rfl
  · intro c hc
    rcases valid_format_cases (hok.2 c hc).2.2 with h | h <;> rw [h] <;> rfl
  · obtain ⟨color, hcolor⟩ := colorMap_some hl
    rw [hcolor]; rfl
  · obtain ⟨name, hname⟩ := strMap_some hl
    rw [hname]; rfl

/-- C20, at a concrete input: a start, two registrations and a log call. -/
theorem C20_safe_mode_registry_invariant_witness :
    sampleRegistry.streamsArr.length = sampleRegistry.streamsArrLen
      ∧ (∀ c ∈ sampleRegistry.streamsArr, c.stream ≠ 0
          ∧ 0 ≤ c.loggingLevel ∧ c.loggingLevel < MDN_LOGGER_LOGGING_LEVEL_COUNT
          ∧ 0 ≤ c.loggingFormat ∧ c.loggingFormat < MDN_LOGGER_LOGGING_FORMAT_COUNT)
      ∧ ∀ loggingLevel : Int, 0 ≤ loggingLevel →
          loggingLevel < MDN_LOGGER_LOGGING_LEVEL_COUNT →
          (∀ idx, idx < sampleRegistry.streamsArrLen →
            (sampleRegistry.streamsArr[idx]?).isSome = true)
          ∧ (∀ c ∈ sampleRegistry.streamsArr,
              (g_mdn_Logger_logFormatToFuncMap c.loggingFormat).isSome = true)
          ∧ (g_mdn_Logger_loggingLevelToColorMap loggingLevel).isSome = true
          ∧ (g_mdn_Logger_logLevelToStrMap loggingLevel).isSome = true :=
  C20_safe_mode_registry_invariant sampleWorld sampleAfterCalls
    (Call.init true :: sampleCalls)
    [some MDN_STATUS_SUCCESS, some MDN_STATUS_SUCCESS, some MDN_STATUS_SUCCESS, none]
    sampleRegistry rfl rfl rfl

/-! ## Call-site file and line -/

theorem logPrintFunc_ignores_site (host : Host) (st : Logger_InternalState_t)
    (streamIndex : Nat) (loggingLevel : Int) (file1 file2 : List Char) (line1 line2 : Int)
    (funcName format : List Char) (args : List Arg) (fs : Nat → FILE)
    {loggingFormat : Int} {f : mdn_Logger_logPrintFunc}
    (hf : g_mdn_Logger_logFormatToFuncMap loggingFormat = some f) :
    f host st ⟨streamIndex, loggingLevel, file1, line1, funcName, format, args⟩ fs
      = f host st ⟨streamIndex, loggingLevel, file2, line2, funcName, format, args⟩ fs := by
  unfold g_mdn_Logger_logFormatToFuncMap at hf
  split_ifs at hf
  · rw [← Option.some.inj hf]
    rfl
  · rw [← Option.some.inj hf]
    rfl

/-- The loop of `mdn_Logger_log` does the same whatever file and line it is given. -/
theorem log_loop_ignores_site (host : Host) (st : Logger_InternalState_t)
    (loggingLevel : Int) (file1 file2 : List Char) (line1 line2 : Int)
    (funcName format : List Char) (varargs : List Arg) :
    ∀ (remaining idx : Nat) (fs : Nat → FILE),
      mdn_Logger_log_loop host st loggingLevel file1 line1 funcName format varargs
          remaining idx fs
        = mdn_Logger_log_loop host st loggingLevel file2 line2 funcName format varargs
          remaining idx fs := by
  intro remaining
  induction remaining with
  | zero => intro idx fs; rfl
  | succ n ih =>
    intro idx fs
    unfold mdn_Logger_log_loop
    cases hget : st.streamsArr[idx]? with
    | none => rfl
    | some cfg =>
      simp only []
      by_cases hthr : loggingLevel < cfg.loggingLevel
      · rw [if_pos hthr, if_pos hthr]
        exact ih (idx + 1) fs
      · rw [if_neg hthr, if_neg hthr]
        cases hf : g_mdn_Logger_logFormatToFuncMap cfg.loggingFormat with
        | none => rfl
        | some f =>
          simp only []
          rw [logPrintFunc_ignores_site host st idx loggingLevel file1 file2 line1 line2
            funcName format varargs fs hf]
          cases f host st ⟨idx, loggingLevel, file2, line2, funcName, format, varargs⟩ fs with
          | none => rfl
          | some fs1 => exact ih (idx + 1) fs1

/-- C21.  Two `mdn_Logger_log` calls that differ only in their file and line arguments have
the same outcome on every state: the same streams receive the same bytes (and the two
calls are defined or undefined together), and a call that returns leaves the registry as it
found it.  On a registry of valid entries, with a valid severity and a clock that fits its
buffer, both calls return. -/
theorem C21_file_and_line_do_not_matter (host : Host) (loggingLevel : Int)
    (file1 file2 : List Char) (line1 line2 : Int) (funcName format : List Char)
    (varargs : List Arg) (w : World) :
    mdn_Logger_log host loggingLevel file1 line1 funcName format varargs w
        = mdn_Logger_log host loggingLevel file2 line2 funcName format varargs w
      ∧ (∀ w1, mdn_Logger_log host loggingLevel file1 line1 funcName format varargs w
            = some w1 →
          w1.g_Logger_internalState = w.g_Logger_internalState)
      ∧ (∀ st, w.g_Logger_internalState = some st → RegistryOk st →
          IS_VALID_LOGGING_LEVEL loggingLevel = true → ClockFits host →
          ∃ w1, mdn_Logger_log host loggingLevel file1 line1 funcName format varargs w
                = some w1
            ∧ mdn_Logger_log host loggingLevel file2 line2 funcName format varargs w
                = some w1
            ∧ w1.g_Logger_internalState = w.g_Logger_internalState
            ∧ ∀ t, w1.streams t = if (w.streams t).error = false then
                (w.streams t).receive
                  (owed host loggingLevel funcName (host.vformat format varargs) t 0
                    st.streamsArr)
              else w.streams t) := by
  have heq : mdn_Logger_log host loggingLevel file1 line1 funcName format varargs w
      = mdn_Logger_log host loggingLevel file2 line2 funcName format varargs w := by
    unfold mdn_Logger_log
    cases w.g_Logger_internalState with
    | none => rfl
    | some st =>
      simp only []
      rw [log_loop_ignores_site host st loggingLevel file1 file2 line1 line2 funcName format
        varargs st.streamsArrLen 0 w.streams]
  refine ⟨heq, fun w1 h1 => log_keeps_registry h1, ?_⟩
  intro st hg hok hl hclock
  obtain ⟨w1, hlog, hreg, hstreams⟩ :=
    log_eq host loggingLevel file1 line1 funcName format varargs w hg hok hl hclock
  exact ⟨w1, hlog, by rw [← heq]; exact hlog, hreg, hstreams⟩

/-- C21, at a concrete input: the CRITICAL sample call made from `main.c`, line 7, and from
`other.c`, line 99. -/
theorem C21_file_and_line_do_not_matter_witness :
    mdn_Logger_log sampleHost MDN_LOGGER_LOGGING_LEVEL_CRITICAL "main.c".toList 7
        "main".toList "hello".toList [] sampleLoaded
      = mdn_Logger_log sampleHost MDN_LOGGER_LOGGING_LEVEL_CRITICAL "other.c".toList 99
        "main".toList "hello".toList [] sampleLoaded
    ∧ ∃ w1, mdn_Logger_log sampleHost MDN_LOGGER_LOGGING_LEVEL_CRITICAL "main.c".toList 7
          "main".toList "hello".toList [] sampleLoaded = some w1
      ∧ mdn_Logger_log sampleHost MDN_LOGGER_LOGGING_LEVEL_CRITICAL "other.c".toList 99
          "main".toList "hello".toList [] sampleLoaded = some w1
      ∧ w1.g_Logger_internalState = sampleLoaded.g_Logger_internalState
      ∧ ∀ t, w1.streams t = if (sampleLoaded.streams t).error = false then
          (sampleLoaded.streams t).receive
            (owed sampleHost MDN_LOGGER_LOGGING_LEVEL_CRITICAL "main".toList
              (sampleHost.vformat "hello".toList []) t 0 sampleRegistry.streamsArr)
        else sampleLoaded.streams t :=
  ⟨(C21_file_and_line_do_not_matter sampleHost MDN_LOGGER_LOGGING_LEVEL_CRITICAL
      "main.c".toList "other.c".toList 7 99 "main".toList "hello".toList [] sampleLoaded).1,
    (C21_file_and_line_do_not_matter sampleHost MDN_LOGGER_LOGGING_LEVEL_CRITICAL
      "main.c".toList "other.c".toList 7 99 "main".toList "hello".toList []
      sampleLoaded).2.2 sampleRegistry rfl (by decide) rfl sampleHost_clockFits⟩

end MdnLogger
